import Mathlib

/-!
Shallow embedding of the inventory-consistency and invoice-sequencing core of
`src/backend/app.py` (Flask + SQLAlchemy backend of the shroom repository).

Modelling conventions:
* Database tables are Lean lists of records; `filter_by(...).first()` is
  `List.find?` over the list in row-insertion order, `db.session.add` appends.
* Python ints are `Int`; monetary amounts (`Float` columns) are modelled as
  `Int` (only `abs` and equality of amounts matter to the claims).
* `generate_id(pfx)` is modelled by a fresh-name counter threaded through the
  state (`nextId`); only distinctness of ids matters.
* Unused display-only columns (contact, address, product names, prices, the
  expense primary key in one creation path) are omitted or kept as `Option`.
* Each endpoint returns the persisted post-state together with
  `Except String α` for the HTTP outcome.  `update_inventory` commits per call
  and rolls back only its own uncommitted change, so a failure inside a loop of
  calls leaves the previously committed calls in place; the embedding returns
  the post-rollback state explicitly to capture exactly that.
* Calendar dates are absolute day numbers (`Nat`) with `weekday d = d % 7`,
  day 0 being a Monday, matching Python's `date.weekday()` convention
  (Monday = 0).  `datetime.now()` (midnight-truncated) is passed explicitly as
  the `today` argument.
-/

namespace Shroom

/-- Fresh identifier built from a prefix and a counter, standing in for
`generate_id` from the source (timestamp + random suffix; only distinctness
is relevant). -/
def freshName (pfx : String) (n : Nat) : String :=
  pfx ++ "_" ++ toString n

/-- One row of the `inventory` table: per (product, warehouse) quantity. -/
structure InventoryRecord where
  id : String
  productId : String
  warehouseId : String
  quantity : Int
deriving DecidableEq, Repr

/-- One line item of a sale or return: `{productId, quantity}` (name and price
are display-only in the source logic). -/
structure LineItem where
  productId : String
  quantity : Int
deriving DecidableEq, Repr

/-- One row of the `sales` table. -/
structure Sale where
  id : String
  invoiceNumber : String
  customerName : String
  products : List LineItem
  totalAmount : Int
  date : String
  status : String
  warehouseId : Option String
deriving DecidableEq, Repr

/-- One row of the `wholesale_sales` table (contact/address omitted). -/
structure WholesaleSale where
  id : String
  invoiceNumber : String
  shopName : String
  products : List LineItem
  totalAmount : Int
  date : String
  status : String
  warehouseId : Option String
deriving DecidableEq, Repr

/-- One row of the `expenses` table.  The id is `Option` because the
free-sample expense created inside the sale-update endpoint is constructed
without an id in the source. -/
structure Expense where
  id : Option String
  category : String
  description : String
  amount : Int
  date : String
  warehouse_id : Option String
deriving DecidableEq, Repr

/-- One row of the `invoice_counters` table. -/
structure InvoiceCounter where
  id : String
  counterType : String
  currentNumber : Int
deriving DecidableEq, Repr

/-- One row of the `sales_returns` table (the server-generated UUID primary
key is omitted; nothing reads it). -/
structure SalesReturn where
  sale_id : String
  returned_products : List LineItem
  date : String
deriving DecidableEq, Repr

/-- The whole persistent store, plus the fresh-name counter. -/
structure DB where
  inventory : List InventoryRecord
  sales : List Sale
  wsales : List WholesaleSale
  expenses : List Expense
  counters : List InvoiceCounter
  returns : List SalesReturn
  nextId : Nat
deriving DecidableEq, Repr

/-- The part of the state `update_inventory` touches: the inventory table and
the fresh-name counter. -/
structure InvState where
  records : List InventoryRecord
  nextId : Nat
deriving DecidableEq, Repr

/-- Replace the first element satisfying `p` by its image under `f`
(SQLAlchemy-style in-place mutation of the object returned by `.first()`). -/
def updateFirstP (p : α → Bool) (f : α → α) : List α → List α
  | [] => []
  | x :: xs => if p x then f x :: xs else x :: updateFirstP p f xs

/-- Remove the first element satisfying `p` (`db.session.delete` of the object
returned by a `.first()` / `.get` lookup). -/
def eraseFirstP (p : α → Bool) : List α → List α
  | [] => []
  | x :: xs => if p x then xs else x :: eraseFirstP p xs

/-- The `filter_by(productId=..., warehouseId=...)` predicate. -/
def matchKey (pid wid : String) (r : InventoryRecord) : Bool :=
  r.productId == pid && r.warehouseId == wid

/-- Read contract of the ledger: quantity of the first matching record, 0 when
no record exists. -/
def quantityOf (recs : List InventoryRecord) (pid wid : String) : Int :=
  match recs.find? (matchKey pid wid) with
  | some r => r.quantity
  | none => 0

/-- Whether an inventory record exists for the pair. -/
def hasRec (recs : List InventoryRecord) (pid wid : String) : Bool :=
  (recs.find? (matchKey pid wid)).isSome

/-- Set the quantity of the first (pid, wid) record. -/
def setQtyFirst (recs : List InventoryRecord) (pid wid : String) (q : Int) :
    List InventoryRecord :=
  updateFirstP (matchKey pid wid) (fun r => { r with quantity := q }) recs

/-- `update_inventory(product_id, warehouse_id, quantity_change)` from
app.py:449.  Returns the committed (or rolled-back) state and the error, if
any.  On error the returned state is the input state: the source rolls back
its own uncommitted mutation and re-raises. -/
def update_inventory (s : InvState) (pid wid : String) (delta : Int) :
    InvState × Option String :=
  match s.records.find? (matchKey pid wid) with
  | none =>
    if 0 < delta then
      (⟨s.records ++ [⟨freshName "inv" s.nextId, pid, wid, delta⟩], s.nextId + 1⟩, none)
    else
      (s, some ("Not enough stock for product " ++ pid))
  | some r =>
    if r.quantity + delta < 0 then
      (s, some ("Not enough stock for product " ++ pid))
    else
      (⟨setQtyFirst s.records pid wid (r.quantity + delta), s.nextId⟩, none)

/-- `check_stock_availability(products_list, warehouse_id)` from app.py:478
(and its identical redefinition at app.py:900): first insufficiency found, or
`(true, "")`. -/
def check_stock_availability (items : List LineItem) (wid : String)
    (recs : List InventoryRecord) : Bool × String :=
  match items with
  | [] => (true, "")
  | it :: rest =>
    let avail := quantityOf recs it.productId wid
    if avail < it.quantity then
      (false, "Not enough stock for " ++ it.productId ++ ". Required: " ++
        toString it.quantity ++ ", Available: " ++ toString avail)
    else
      check_stock_availability rest wid recs

/-- The per-line-item `update_inventory` loops inside `add_sale` /
`delete_sale` (and their wholesale twins): each call commits on its own; on
the first failure the loop stops, keeping the already committed calls. -/
def adjust_loop (s : InvState) (wid : String) (deltaOf : LineItem → Int) :
    List LineItem → InvState × Option String
  | [] => (s, none)
  | it :: rest =>
    match update_inventory s it.productId wid (deltaOf it) with
    | (s1, none) => adjust_loop s1 wid deltaOf rest
    | (s1, some e) => (s1, some e)

/-- Prefix table of `get_next_invoice_number` (app.py:440). -/
def prefixFor (t : String) : String :=
  if t == "subscription" then "SUB"
  else if t == "sale" then "INV"
  else if t == "wholesale_sale" then "WS"
  else "N/A"

/-- `get_next_invoice_number(counter_type)` from app.py:424: read-or-create
the counter row, increment by one, persist, return `PREFIX-number`.  The
`Nat` argument and result thread the fresh-name counter. -/
def get_next_invoice_number (counters : List InvoiceCounter) (ctype : String)
    (fresh : Nat) : String × List InvoiceCounter × Nat :=
  let created : List InvoiceCounter × Nat :=
    match counters.find? (fun c => c.counterType == ctype) with
    | none => (counters ++ [⟨freshName "ic" fresh, ctype, 0⟩], fresh + 1)
    | some _ => (counters, fresh)
  let cur :=
    (((created.1.find? (fun c => c.counterType == ctype)).map
      (fun c => c.currentNumber)).getD 0) + 1
  (prefixFor ctype ++ "-" ++ toString cur,
   updateFirstP (fun c => c.counterType == ctype)
     (fun c => { c with currentNumber := cur }) created.1,
   created.2)

/-- Stored value of a counter, if its row exists. -/
def counterVal (counters : List InvoiceCounter) (t : String) : Option Int :=
  (counters.find? (fun c => c.counterType == t)).map (fun c => c.currentNumber)

/-- N successive `get_next_invoice_number` calls for one counter type,
collecting the returned invoice codes. -/
def iterInvoice (counters : List InvoiceCounter) (ctype : String) (fresh : Nat) :
    Nat → List String × List InvoiceCounter × Nat
  | 0 => ([], counters, fresh)
  | n + 1 =>
    let r := get_next_invoice_number counters ctype fresh
    let rest := iterInvoice r.2.1 ctype r.2.2 n
    (r.1 :: rest.1, rest.2.1, rest.2.2)

/-- Python truthiness test used on optional string fields
(`if not warehouse_id`, `if not preferred_day`): true for `None` and `""`. -/
def strFalsy : Option String → Bool
  | none => true
  | some s => s == ""

/-- The weekday-name table of `calculate_delivery_schedule` (app.py:131). -/
def day_map (s : String) : Option Nat :=
  if s == "Monday" then some 0
  else if s == "Tuesday" then some 1
  else if s == "Wednesday" then some 2
  else if s == "Thursday" then some 3
  else if s == "Friday" then some 4
  else if s == "Saturday" then some 5
  else if s == "Sunday" then some 6
  else none

/-- The 31-iteration collection loop of `calculate_delivery_schedule`
(app.py:142): all dates in `[today, today+31)` whose weekday is `w`. -/
def delivery_dates (today : Nat) (w : Nat) : List Nat :=
  ((List.range 31).filter (fun k => (today + k) % 7 == w)).map (fun k => today + k)

/-- One `{date, day, boxes}` entry of the returned schedule.  The date is the
absolute day number (the source formats it as `YYYY-MM-DD`). -/
structure ScheduleEntry where
  date : Nat
  day : String
  boxes : Int
deriving DecidableEq, Repr

/-- The distribution loop of `calculate_delivery_schedule` (app.py:155):
entry `i` gets `q` boxes plus one extra while `i < rem`. -/
def distribute (q rem : Int) (dayName : String) :
    Nat → List Nat → List ScheduleEntry
  | _, [] => []
  | i, d :: rest =>
    ⟨d, dayName, q + if (i : Int) < rem then 1 else 0⟩ ::
      distribute q rem dayName (i + 1) rest

/-- `calculate_delivery_schedule(start_date_str, preferred_day,
boxes_per_month)` from app.py:123.  The source reads `datetime.now()`; that
reference day is the explicit `today` argument here.  `start_date_str` is a
parameter of the source function and is never used by it. -/
def calculate_delivery_schedule (start_date_str : String)
    (preferred_day : Option String) (boxes_per_month : Int) (today : Nat) :
    List ScheduleEntry :=
  if strFalsy preferred_day || (preferred_day == some "Any Day") then []
  else
    match day_map (preferred_day.getD "") with
    | none => []
    | some w =>
      let dates := delivery_dates today w
      if dates.isEmpty ∨ boxes_per_month ≤ 0 then []
      else
        let n : Int := (dates.length : Int)
        distribute (boxes_per_month / n) (boxes_per_month % n)
          (preferred_day.getD "") 0 dates

/-- JSON body of `POST /api/sales`. -/
structure SaleRequest where
  warehouseId : Option String
  products : List LineItem
  customerName : String
  totalAmount : Int
  date : String
  status : String
deriving DecidableEq, Repr

/-- JSON body of `POST /api/wholesale-sales` (shop contact fields omitted). -/
structure WSaleRequest where
  warehouseId : Option String
  products : List LineItem
  shopName : String
  totalAmount : Int
  date : String
  status : String
deriving DecidableEq, Repr

/-- JSON body of `POST /api/sales-returns`.  The source reads only `saleId`,
`returnedProducts` and `date`; a `warehouseId` field supplied by the caller is
carried here to state claims about it. -/
structure ReturnRequest where
  saleId : String
  returnedProducts : List LineItem
  date : String
  warehouseId : Option String
deriving DecidableEq, Repr

/-- JSON body of `PUT /api/sales/<sale_id>`: every field optional, absent
fields keep the stored value. -/
structure SaleUpdate where
  customerName : Option String
  date : Option String
  status : Option String
  warehouseId : Option String
  products : Option (List LineItem)
  totalAmount : Option Int
deriving DecidableEq, Repr

/-- `Sale.query.get(sale_id)`: first row with the given primary key. -/
def findSaleById (sales : List Sale) (sid : String) : Option Sale :=
  sales.find? (fun s => s.id == sid)

/-- The deterministic linkage key of a free-sample expense (app.py:881). -/
def expenseDesc (invoiceNumber : String) : String :=
  "Free sample - Invoice " ++ invoiceNumber

/-- The `filter_by(category='FREE_SAMPLES', description=...)` predicate. -/
def isFreeExpenseFor (invoiceNumber : String) (e : Expense) : Bool :=
  e.category == "FREE_SAMPLES" && e.description == expenseDesc invoiceNumber

/-- Success path of `add_sale` after the deduction loop (app.py:865-893):
assign ids and invoice number, persist the sale and, for a "Free" sale, the
linked free-sample expense.  `s1` is the inventory state left by the loop. -/
def finishAddSale (db : DB) (s1 : InvState) (req : SaleRequest) :
    DB × Except String Sale :=
  let saleId := freshName "sale" s1.nextId
  let r := get_next_invoice_number db.counters "sale" (s1.nextId + 1)
  let sale : Sale :=
    ⟨saleId, r.1, req.customerName, req.products, req.totalAmount,
      req.date, req.status, req.warehouseId⟩
  if sale.status == "Free" then
    let exp : Expense :=
      ⟨some (freshName "expense" r.2.2), "FREE_SAMPLES",
        expenseDesc sale.invoiceNumber, |sale.totalAmount|, sale.date,
        sale.warehouseId⟩
    ({ db with inventory := s1.records, nextId := r.2.2 + 1,
               sales := db.sales ++ [sale], counters := r.2.1,
               expenses := db.expenses ++ [exp] }, .ok sale)
  else
    ({ db with inventory := s1.records, nextId := r.2.2,
               sales := db.sales ++ [sale], counters := r.2.1 }, .ok sale)

/-- `POST /api/sales` (`add_sale`, app.py:843): validate, pre-check stock,
deduct per line item (each deduction commits on its own), then persist the
sale.  A deduction failure aborts with the already committed deductions kept
(the final rollback only undoes the uncommitted sale row). -/
def add_sale (db : DB) (req : SaleRequest) : DB × Except String Sale :=
  if strFalsy req.warehouseId then (db, .error "Valid warehouseId is required")
  else if req.products.isEmpty then (db, .error "No products provided for sale")
  else
    let wid := req.warehouseId.getD ""
    let chk := check_stock_availability req.products wid db.inventory
    if chk.1 then
      match adjust_loop ⟨db.inventory, db.nextId⟩ wid
          (fun it => -it.quantity) req.products with
      | (s1, none) => finishAddSale db s1 req
      | (s1, some e) =>
        ({ db with inventory := s1.records, nextId := s1.nextId }, .error e)
    else (db, .error chk.2)

/-- `PUT /api/sales/<sale_id>` field merge (app.py:927-945).  A present but
empty `date` keeps the stored date (`if 'date' in data and data['date']`);
`invoiceNumber` is never touched. -/
def applyUpd (sale : Sale) (u : SaleUpdate) : Sale :=
  { sale with
    customerName := u.customerName.getD sale.customerName,
    date := match u.date with
            | some d => if d == "" then sale.date else d
            | none => sale.date,
    status := u.status.getD sale.status,
    warehouseId := match u.warehouseId with
                   | some w => some w
                   | none => sale.warehouseId,
    products := u.products.getD sale.products,
    totalAmount := u.totalAmount.getD sale.totalAmount }

/-- `PUT /api/sales/<sale_id>` (`update_sale_endpoint`, app.py:918): merge the
fields, then sync the linked FREE_SAMPLES expense: Free keeps exactly the
first matching expense up to date (creating it when absent, with amount
`abs(totalAmount)`); non-Free deletes the first matching expense. -/
def update_sale_endpoint (db : DB) (sid : String) (u : SaleUpdate) :
    DB × Except String Sale :=
  match findSaleById db.sales sid with
  | none => (db, .error "Sale not found")
  | some sale0 =>
    let sale := applyUpd sale0 u
    let p := isFreeExpenseFor sale.invoiceNumber
    let expenses' :=
      if sale.status == "Free" then
        match db.expenses.find? p with
        | some _ =>
          updateFirstP p
            (fun e => { e with amount := |sale.totalAmount|,
                               date := sale.date,
                               warehouse_id := sale.warehouseId }) db.expenses
        | none =>
          db.expenses ++
            [⟨none, "FREE_SAMPLES", expenseDesc sale.invoiceNumber,
              |sale.totalAmount|, sale.date, sale.warehouseId⟩]
      else eraseFirstP p db.expenses
    ({ db with sales := updateFirstP (fun s => s.id == sid) (fun _ => sale) db.sales,
               expenses := expenses' }, .ok sale)

/-- `DELETE /api/sales/<sale_id>` (`delete_sale`, app.py:987): restore each
line item to the sale's own warehouse (loop of committing `update_inventory`
calls), delete the linked free-sample expense if any, delete the sale.  A
restore failure aborts, keeping the restores committed before it. -/
def delete_sale (db : DB) (sid : String) : DB × Except String Unit :=
  match findSaleById db.sales sid with
  | none => (db, .error "Sale not found")
  | some sale =>
    if strFalsy sale.warehouseId then (db, .error "Sale has no warehouseId set")
    else
      let wid := sale.warehouseId.getD ""
      match adjust_loop ⟨db.inventory, db.nextId⟩ wid
          (fun it => it.quantity) sale.products with
      | (s1, none) =>
        ({ db with inventory := s1.records, nextId := s1.nextId,
                   expenses := eraseFirstP (isFreeExpenseFor sale.invoiceNumber) db.expenses,
                   sales := eraseFirstP (fun s => s.id == sid) db.sales }, .ok ())
      | (s1, some e) =>
        ({ db with inventory := s1.records, nextId := s1.nextId }, .error e)

/-- `POST /api/wholesale-sales` (`add_wholesale_sale`, app.py:1124): no
warehouse validation (`data.get('warehouseId', 'default')` for the stock
operations), otherwise like `add_sale` without the free-sample expense. -/
def add_wholesale_sale (db : DB) (req : WSaleRequest) :
    DB × Except String WholesaleSale :=
  let wid := req.warehouseId.getD "default"
  let chk := check_stock_availability req.products wid db.inventory
  if chk.1 then
    match adjust_loop ⟨db.inventory, db.nextId⟩ wid
        (fun it => -it.quantity) req.products with
    | (s1, none) =>
      let saleId := freshName "wsale" s1.nextId
      let r := get_next_invoice_number db.counters "wholesale_sale" (s1.nextId + 1)
      let sale : WholesaleSale :=
        ⟨saleId, r.1, req.shopName, req.products, req.totalAmount,
          req.date, req.status, req.warehouseId⟩
      ({ db with inventory := s1.records, nextId := r.2.2,
                 wsales := db.wsales ++ [sale], counters := r.2.1 }, .ok sale)
    | (s1, some e) =>
      ({ db with inventory := s1.records, nextId := s1.nextId }, .error e)
  else (db, .error chk.2)

/-- `DELETE /api/wholesale-sales/<sale_id>` (`delete_wholesale_sale`,
app.py:1189): like `delete_sale` but with no linked expense handling. -/
def delete_wholesale_sale (db : DB) (sid : String) : DB × Except String Unit :=
  match db.wsales.find? (fun s => s.id == sid) with
  | none => (db, .error "Wholesale sale not found")
  | some sale =>
    if strFalsy sale.warehouseId then (db, .error "Sale has no warehouseId set")
    else
      let wid := sale.warehouseId.getD ""
      match adjust_loop ⟨db.inventory, db.nextId⟩ wid
          (fun it => it.quantity) sale.products with
      | (s1, none) =>
        ({ db with inventory := s1.records, nextId := s1.nextId,
                   wsales := eraseFirstP (fun s => s.id == sid) db.wsales }, .ok ())
      | (s1, some e) =>
        ({ db with inventory := s1.records, nextId := s1.nextId }, .error e)

/-- `POST /api/inventory/stock` (`add_inventory_stock`, app.py:1430): create
the (product, warehouse) record with the supplied quantity, or add the
supplied quantity to it.  No sign check of any kind. -/
def add_inventory_stock (db : DB) (pid wid : String) (q : Int) :
    DB × Except String Unit :=
  match db.inventory.find? (matchKey pid wid) with
  | none =>
    ({ db with inventory := db.inventory ++ [⟨freshName "inv" db.nextId, pid, wid, q⟩],
               nextId := db.nextId + 1 }, .ok ())
  | some r =>
    ({ db with inventory := setQtyFirst db.inventory pid wid (r.quantity + q) }, .ok ())

/-- `PUT /api/inventory/<id>` (`update_inventory_item`, app.py:496): look the
record up by row id and overwrite its quantity with the supplied value, if
one is supplied.  No sign check. -/
def update_inventory_item (db : DB) (rid : String) (newq : Option Int) :
    DB × Except String Unit :=
  match db.inventory.find? (fun r => r.id == rid) with
  | none => (db, .error "Inventory item not found")
  | some _ =>
    match newq with
    | some q =>
      ({ db with inventory := updateFirstP (fun r => r.id == rid)
                   (fun r => { r with quantity := q }) db.inventory }, .ok ())
    | none => (db, .ok ())

/-- `POST /api/sales-returns` (`add_sales_return`, app.py:1472): require the
original sale (retail or wholesale) to exist, then persist the `SalesReturn`
row.  The source performs no inventory operation here and never reads the
request's `warehouseId`. -/
def add_sales_return (db : DB) (req : ReturnRequest) : DB × Except String Unit :=
  if ((findSaleById db.sales req.saleId).isSome ||
      (db.wsales.find? (fun s => s.id == req.saleId)).isSome) then
    ({ db with returns := db.returns ++ [⟨req.saleId, req.returnedProducts, req.date⟩] },
     .ok ())
  else (db, .error "Original sale not found")

/-- The non-negativity invariant of the inventory store. -/
def invNonneg (recs : List InventoryRecord) : Prop :=
  ∀ r ∈ recs, 0 ≤ r.quantity

instance invNonneg_decidable (recs : List InventoryRecord) :
    Decidable (invNonneg recs) :=
  inferInstanceAs (Decidable (∀ r ∈ recs, 0 ≤ r.quantity))

/-- Total quantity a list of line items carries for one product. -/
def demandOf (items : List LineItem) (p : String) : Int :=
  ((items.filter (fun it => it.productId == p)).map (fun it => it.quantity)).sum

/-- Number of stored FREE_SAMPLES expenses linked to an invoice number. -/
def countFree (expenses : List Expense) (invoiceNumber : String) : Nat :=
  (expenses.filter (isFreeExpenseFor invoiceNumber)).length

/-! Helper lemmas about the list primitives. -/

theorem find?_append_of_none {p : α → Bool} {l1 : List α} (l2 : List α)
    (h : l1.find? p = none) : (l1 ++ l2).find? p = l2.find? p := by
  induction l1 with
  | nil => simp
  | cons a l ih =>
    cases hpa : p a with
    | true => simp [List.find?_cons, hpa] at h
    | false =>
      simp only [List.find?_cons, hpa] at h
      simp only [List.cons_append, List.find?_cons, hpa]
      exact ih h

theorem find?_append_of_some {p : α → Bool} {l1 : List α} {x : α} (l2 : List α)
    (h : l1.find? p = some x) : (l1 ++ l2).find? p = some x := by
  induction l1 with
  | nil => simp at h
  | cons a l ih =>
    cases hpa : p a with
    | true =>
      simp only [List.find?_cons, hpa] at h
      simp only [List.cons_append, List.find?_cons, hpa]
      exact h
    | false =>
      simp only [List.find?_cons, hpa] at h
      simp only [List.cons_append, List.find?_cons, hpa]
      exact ih h

theorem mem_updateFirstP {p : α → Bool} {f : α → α} {l : List α} {x : α}
    (hx : x ∈ updateFirstP p f l) : x ∈ l ∨ ∃ y ∈ l, x = f y := by
  induction l with
  | nil => simp [updateFirstP] at hx
  | cons a l ih =>
    simp only [updateFirstP] at hx
    cases hpa : p a with
    | true =>
      rw [if_pos hpa] at hx
      rcases List.mem_cons.mp hx with h1 | h1
      · exact Or.inr ⟨a, List.mem_cons_self a l, h1⟩
      · exact Or.inl (List.mem_cons_of_mem a h1)
    | false =>
      rw [if_neg (ne_true_of_eq_false hpa)] at hx
      rcases List.mem_cons.mp hx with h1 | h1
      · exact Or.inl (h1 ▸ List.mem_cons_self a l)
      · rcases ih h1 with h2 | ⟨y, hy, hxy⟩
        · exact Or.inl (List.mem_cons_of_mem a h2)
        · exact Or.inr ⟨y, List.mem_cons_of_mem a hy, hxy⟩

theorem mem_eraseFirstP {p : α → Bool} {l : List α} {x : α}
    (hx : x ∈ eraseFirstP p l) : x ∈ l := by
  induction l with
  | nil => simp [eraseFirstP] at hx
  | cons a l ih =>
    simp only [eraseFirstP] at hx
    cases hpa : p a with
    | true =>
      rw [if_pos hpa] at hx
      exact List.mem_cons_of_mem a hx
    | false =>
      rw [if_neg (ne_true_of_eq_false hpa)] at hx
      rcases List.mem_cons.mp hx with h1 | h1
      · exact h1 ▸ List.mem_cons_self a l
      · exact List.mem_cons_of_mem a (ih h1)

theorem filter_eraseFirstP (p : α → Bool) (l : List α) :
    (eraseFirstP p l).filter p = (l.filter p).tail := by
  induction l with
  | nil => simp [eraseFirstP]
  | cons a l ih =>
    simp only [eraseFirstP]
    cases hpa : p a with
    | true => simp [List.filter_cons, hpa]
    | false => simp [List.filter_cons, hpa, ih]

theorem filter_eq_nil_of_find?_none {p : α → Bool} {l : List α}
    (h : l.find? p = none) : l.filter p = [] := by
  rw [List.find?_eq_none] at h
  exact List.filter_eq_nil_iff.mpr h

theorem filter_single_of_find? {p : α → Bool} {l : List α} {x : α}
    (hx : l.find? p = some x) (hlen : (l.filter p).length ≤ 1) :
    l.filter p = [x] := by
  induction l with
  | nil => simp at hx
  | cons a l ih =>
    cases hpa : p a with
    | true =>
      simp only [List.find?_cons, hpa] at hx
      simp only [List.filter_cons, hpa, if_true] at hlen ⊢
      have hnil : l.filter p = [] := by
        cases hfl : l.filter p with
        | nil => rfl
        | cons b t => rw [hfl] at hlen; simp at hlen
      injection hx with hax
      simp [hnil, hax]
    | false =>
      simp only [List.find?_cons, hpa] at hx
      simp only [List.filter_cons, hpa, if_false] at hlen ⊢
      exact ih hx hlen

theorem filter_updateFirstP_single {p : α → Bool} {f : α → α} {l : List α} {x : α}
    (hx : l.find? p = some x) (hsingle : l.filter p = [x])
    (hpf : p (f x) = true) : (updateFirstP p f l).filter p = [f x] := by
  induction l with
  | nil => simp at hx
  | cons a l ih =>
    cases hpa : p a with
    | true =>
      simp only [List.find?_cons, hpa] at hx
      have hax : a = x := by injection hx
      simp only [List.filter_cons, hpa, if_true] at hsingle
      have hnil : l.filter p = [] := by injection hsingle
      simp only [updateFirstP]
      rw [if_pos hpa, hax]
      simp [List.filter_cons, hpf, hnil]
    | false =>
      simp only [List.find?_cons, hpa] at hx
      simp only [List.filter_cons, hpa, if_false] at hsingle
      simp only [updateFirstP]
      rw [if_neg (ne_true_of_eq_false hpa)]
      simp only [List.filter_cons, hpa, if_false]
      exact ih hx hsingle

theorem find?_updateFirstP {p : α → Bool} {f : α → α} {l : List α}
    (hf : ∀ y, p y = true → p (f y) = true) :
    (updateFirstP p f l).find? p = (l.find? p).map f := by
  induction l with
  | nil => simp [updateFirstP]
  | cons a l ih =>
    cases hpa : p a with
    | true =>
      simp only [updateFirstP]
      rw [if_pos hpa]
      simp [List.find?_cons, hpa, hf a hpa]
    | false =>
      simp only [updateFirstP]
      rw [if_neg (ne_true_of_eq_false hpa)]
      simp only [List.find?_cons, hpa]
      exact ih

theorem find?_updateFirstP_other {p q : α → Bool} {f : α → α} {l : List α}
    (hdisj : ∀ y, p y = true → q y = false) (hq : ∀ y, q (f y) = q y) :
    (updateFirstP p f l).find? q = l.find? q := by
  induction l with
  | nil => simp [updateFirstP]
  | cons a l ih =>
    cases hpa : p a with
    | true =>
      simp only [updateFirstP]
      rw [if_pos hpa]
      have h1 : q (f a) = false := by rw [hq]; exact hdisj a hpa
      simp [List.find?_cons, h1, hdisj a hpa]
    | false =>
      simp only [updateFirstP]
      rw [if_neg (ne_true_of_eq_false hpa)]
      simp only [List.find?_cons]
      cases hqa : q a with
      | true => rfl
      | false => exact ih

theorem list_map_congr {l : List α} {f g : α → β}
    (h : ∀ a ∈ l, f a = g a) : l.map f = l.map g := by
  induction l with
  | nil => rfl
  | cons a l ih =>
    simp only [List.map_cons]
    rw [h a (List.mem_cons_self a l), ih (fun x hx => h x (List.mem_cons_of_mem a hx))]

theorem list_filter_congr {l : List α} {p q : α → Bool}
    (h : ∀ a ∈ l, p a = q a) : l.filter p = l.filter q := by
  induction l with
  | nil => rfl
  | cons a l ih =>
    have ha := h a (List.mem_cons_self a l)
    have ih2 := ih (fun x hx => h x (List.mem_cons_of_mem a hx))
    cases hpa : p a with
    | true =>
      rw [List.filter_cons_of_pos hpa, List.filter_cons_of_pos (ha ▸ hpa), ih2]
    | false =>
      rw [List.filter_cons_of_neg, List.filter_cons_of_neg] <;>
        simp [hpa, ← ha, ih2]

theorem list_sum_map_neg (l : List α) (g : α → Int) :
    (l.map (fun x => -(g x))).sum = -((l.map g).sum) := by
  induction l with
  | nil => simp
  | cons a l ih => simp [ih]; ring

/-! Lemmas about the single-pair ledger operation `update_inventory`. -/

theorem matchKey_unique {r : InventoryRecord} {pid wid p w : String}
    (h1 : matchKey pid wid r = true) (h2 : matchKey p w r = true) :
    p = pid ∧ w = wid := by
  simp only [matchKey, Bool.and_eq_true, beq_iff_eq] at h1 h2
  exact ⟨h2.1 ▸ h1.1, h2.2 ▸ h1.2⟩

theorem matchKey_set (p w : String) (r : InventoryRecord) (q : Int) :
    matchKey p w { r with quantity := q } = matchKey p w r := rfl

theorem quantityOf_setQtyFirst_self (recs : List InventoryRecord)
    (pid wid : String) (q : Int) (h : hasRec recs pid wid = true) :
    quantityOf (setQtyFirst recs pid wid q) pid wid = q := by
  induction recs with
  | nil => simp [hasRec] at h
  | cons r rest ih =>
    cases hm : matchKey pid wid r with
    | true =>
      simp only [setQtyFirst, updateFirstP]
      rw [if_pos hm]
      have hm2 : matchKey pid wid { r with quantity := q } = true := hm
      simp [quantityOf, List.find?_cons, hm2]
    | false =>
      have h2 : hasRec rest pid wid = true := by
        simpa [hasRec, List.find?_cons, hm] using h
      have ih2 := ih h2
      simp only [setQtyFirst, updateFirstP] at ih2 ⊢
      rw [if_neg (ne_true_of_eq_false hm)]
      simpa [quantityOf, List.find?_cons, hm] using ih2

theorem quantityOf_setQtyFirst_other (recs : List InventoryRecord)
    (pid wid p w : String) (q : Int) (h : ¬(p = pid ∧ w = wid)) :
    quantityOf (setQtyFirst recs pid wid q) p w = quantityOf recs p w := by
  induction recs with
  | nil => rfl
  | cons r rest ih =>
    cases hm : matchKey pid wid r with
    | true =>
      have hm2 : matchKey p w r = false := by
        cases hc : matchKey p w r with
        | true => exact absurd (matchKey_unique hm hc) h
        | false => rfl
      simp only [setQtyFirst, updateFirstP]
      rw [if_pos hm]
      simp [quantityOf, List.find?_cons, matchKey_set, hm2]
    | false =>
      have ih2 := ih
      simp only [setQtyFirst, updateFirstP] at ih2 ⊢
      rw [if_neg (ne_true_of_eq_false hm)]
      cases hc : matchKey p w r with
      | true => simp [quantityOf, List.find?_cons, hc]
      | false => simpa [quantityOf, List.find?_cons, hc] using ih2

theorem hasRec_setQtyFirst (recs : List InventoryRecord)
    (pid wid p w : String) (q : Int) :
    hasRec (setQtyFirst recs pid wid q) p w = hasRec recs p w := by
  induction recs with
  | nil => rfl
  | cons r rest ih =>
    cases hm : matchKey pid wid r with
    | true =>
      simp only [setQtyFirst, updateFirstP]
      rw [if_pos hm]
      simp [hasRec, List.find?_cons, matchKey_set]
      cases matchKey p w r <;> simp
    | false =>
      have ih2 := ih
      simp only [setQtyFirst, updateFirstP] at ih2 ⊢
      rw [if_neg (ne_true_of_eq_false hm)]
      cases hc : matchKey p w r with
      | true => simp [hasRec, List.find?_cons, hc]
      | false => simpa [hasRec, List.find?_cons, hc] using ih2

theorem quantityOf_append_of_none {recs : List InventoryRecord} {p w : String}
    (nr : InventoryRecord) (h : recs.find? (matchKey p w) = none) :
    quantityOf (recs ++ [nr]) p w = if matchKey p w nr then nr.quantity else 0 := by
  rw [quantityOf, find?_append_of_none _ h]
  cases hm : matchKey p w nr <;> simp [List.find?_cons, hm]

theorem quantityOf_append_of_some {recs : List InventoryRecord} {p w : String}
    {r : InventoryRecord} (nr : InventoryRecord)
    (h : recs.find? (matchKey p w) = some r) :
    quantityOf (recs ++ [nr]) p w = quantityOf recs p w := by
  rw [quantityOf, find?_append_of_some _ h, quantityOf, h]

theorem hasRec_append (recs : List InventoryRecord) (nr : InventoryRecord)
    (p w : String) :
    hasRec (recs ++ [nr]) p w = (hasRec recs p w || matchKey p w nr) := by
  cases hf : recs.find? (matchKey p w) with
  | none =>
    rw [hasRec, find?_append_of_none _ hf]
    cases hm : matchKey p w nr <;> simp [hasRec, hf, List.find?_cons, hm]
  | some r =>
    rw [hasRec, find?_append_of_some _ hf]
    simp [hasRec, hf]

theorem update_inventory_error_eq {s : InvState} {pid wid : String}
    {delta : Int} {e : String}
    (h : (update_inventory s pid wid delta).2 = some e) :
    update_inventory s pid wid delta = (s, some e) := by
  cases hf : s.records.find? (matchKey pid wid) with
  | none =>
    by_cases hd : 0 < delta
    · simp [update_inventory, hf, hd] at h
    · simp [update_inventory, hf, hd] at h ⊢
      exact h
  | some r =>
    by_cases hq : r.quantity + delta < 0
    · simp [update_inventory, hf, hq] at h ⊢
      exact h
    · simp [update_inventory, hf, hq] at h

theorem update_inventory_ok_quantityOf {s : InvState} {pid wid : String}
    {delta : Int} {s' : InvState}
    (h : update_inventory s pid wid delta = (s', none)) (p w : String) :
    quantityOf s'.records p w =
      quantityOf s.records p w + (if p = pid ∧ w = wid then delta else 0) := by
  cases hf : s.records.find? (matchKey pid wid) with
  | none =>
    by_cases hd : 0 < delta
    · have hs' : s' = ⟨s.records ++ [⟨freshName "inv" s.nextId, pid, wid, delta⟩],
          s.nextId + 1⟩ := by
        simp [update_inventory, hf, hd, Prod.ext_iff] at h
        exact h.symm
      subst hs'
      by_cases hk : p = pid ∧ w = wid
      · rcases hk with ⟨rfl, rfl⟩
        rw [show quantityOf s.records p w = 0 from by simp [quantityOf, hf]]
        rw [quantityOf_append_of_none _ hf]
        simp [matchKey]
      · have hm : matchKey p w (⟨freshName "inv" s.nextId, pid, wid, delta⟩ :
            InventoryRecord) = false := by
          cases hc : matchKey p w (⟨freshName "inv" s.nextId, pid, wid, delta⟩ :
              InventoryRecord) with
          | true =>
            have := matchKey_unique (by simp [matchKey] : matchKey pid wid
              (⟨freshName "inv" s.nextId, pid, wid, delta⟩ : InventoryRecord) = true) hc
            exact absurd this hk
          | false => rfl
        cases hg : s.records.find? (matchKey p w) with
        | none =>
          rw [quantityOf_append_of_none _ hg, hm]
          simp [quantityOf, hg, hk]
        | some r2 =>
          rw [quantityOf_append_of_some _ hg]
          simp [hk]
    · simp [update_inventory, hf, hd] at h
  | some r =>
    by_cases hq : r.quantity + delta < 0
    · simp [update_inventory, hf, hq] at h
    · have hs' : s' = ⟨setQtyFirst s.records pid wid (r.quantity + delta),
          s.nextId⟩ := by
        simp [update_inventory, hf, hq, Prod.ext_iff] at h
        exact h.symm
      subst hs'
      by_cases hk : p = pid ∧ w = wid
      · rcases hk with ⟨rfl, rfl⟩
        have hh : hasRec s.records p w = true := by simp [hasRec, hf]
        rw [quantityOf_setQtyFirst_self _ _ _ _ hh]
        simp [quantityOf, hf]
      · rw [quantityOf_setQtyFirst_other _ _ _ _ _ _ hk]
        simp [hk]

theorem update_inventory_ok_hasRec_self {s : InvState} {pid wid : String}
    {delta : Int} {s' : InvState}
    (h : update_inventory s pid wid delta = (s', none)) :
    hasRec s'.records pid wid = true := by
  cases hf : s.records.find? (matchKey pid wid) with
  | none =>
    by_cases hd : 0 < delta
    · have hs' : s' = ⟨s.records ++ [⟨freshName "inv" s.nextId, pid, wid, delta⟩],
          s.nextId + 1⟩ := by
        simp [update_inventory, hf, hd, Prod.ext_iff] at h
        exact h.symm
      subst hs'
      rw [hasRec_append]
      simp [matchKey]
    · simp [update_inventory, hf, hd] at h
  | some r =>
    by_cases hq : r.quantity + delta < 0
    · simp [update_inventory, hf, hq] at h
    · have hs' : s' = ⟨setQtyFirst s.records pid wid (r.quantity + delta),
          s.nextId⟩ := by
        simp [update_inventory, hf, hq, Prod.ext_iff] at h
        exact h.symm
      subst hs'
      rw [hasRec_setQtyFirst]
      simp [hasRec, hf]

theorem update_inventory_hasRec_mono {s : InvState} (pid wid : String)
    (delta : Int) {p w : String} (hp : hasRec s.records p w = true) :
    hasRec (update_inventory s pid wid delta).1.records p w = true := by
  cases hf : s.records.find? (matchKey pid wid) with
  | none =>
    by_cases hd : 0 < delta
    · simp only [update_inventory, hf, hd, if_pos]
      rw [hasRec_append, hp]
      rfl
    · simp [update_inventory, hf, hd, hp]
  | some r =>
    by_cases hq : r.quantity + delta < 0
    · simp [update_inventory, hf, hq, hp]
    · simp only [update_inventory, hf, hq, if_neg]
      simp [hasRec_setQtyFirst, hp]

theorem update_inventory_nonneg {s : InvState} (pid wid : String) (delta : Int)
    (h : invNonneg s.records) :
    invNonneg (update_inventory s pid wid delta).1.records := by
  cases hf : s.records.find? (matchKey pid wid) with
  | none =>
    by_cases hd : 0 < delta
    · simp only [update_inventory, hf, hd, if_pos]
      intro r hr
      rcases List.mem_append.mp hr with h1 | h1
      · exact h r h1
      · simp at h1
        subst h1
        exact le_of_lt hd
    · simpa [update_inventory, hf, hd] using h
  | some r =>
    by_cases hq : r.quantity + delta < 0
    · simpa [update_inventory, hf, hq] using h
    · simp only [update_inventory, hf, hq, if_neg]
      intro r2 hr2
      rcases mem_updateFirstP hr2 with h1 | ⟨y, hy, rfl⟩
      · exact h r2 h1
      · simpa using le_of_not_lt hq

theorem update_inventory_ok_of {s : InvState} {pid wid : String} {delta : Int}
    (h : if hasRec s.records pid wid then 0 ≤ quantityOf s.records pid wid + delta
         else 0 < delta) :
    (update_inventory s pid wid delta).2 = none := by
  cases hf : s.records.find? (matchKey pid wid) with
  | none =>
    have hd : 0 < delta := by simpa [hasRec, hf] using h
    simp [update_inventory, hf, hd]
  | some r =>
    have hq : 0 ≤ r.quantity + delta := by
      simpa [hasRec, hf, quantityOf] using h
    simp [update_inventory, hf, not_lt.mpr hq]

/-! Lemmas about the per-line-item adjustment loops. -/

theorem adjust_loop_hasRec_mono (wid : String) (f : LineItem → Int) :
    ∀ (items : List LineItem) (s : InvState) {p w : String},
      hasRec s.records p w = true →
      hasRec (adjust_loop s wid f items).1.records p w = true := by
  intro items
  induction items with
  | nil => intro s p w hp; exact hp
  | cons it rest ih =>
    intro s p w hp
    simp only [adjust_loop]
    cases hu : update_inventory s it.productId wid (f it) with
    | mk s1 err =>
      have hmono : hasRec s1.records p w = true := by
        have := update_inventory_hasRec_mono it.productId wid (f it) hp
        rwa [hu] at this
      cases err with
      | none => exact ih s1 hmono
      | some e => exact hmono

theorem adjust_loop_nonneg (wid : String) (f : LineItem → Int) :
    ∀ (items : List LineItem) (s : InvState),
      invNonneg s.records →
      invNonneg (adjust_loop s wid f items).1.records := by
  intro items
  induction items with
  | nil => intro s h; exact h
  | cons it rest ih =>
    intro s h
    simp only [adjust_loop]
    cases hu : update_inventory s it.productId wid (f it) with
    | mk s1 err =>
      have h1 : invNonneg s1.records := by
        have := update_inventory_nonneg it.productId wid (f it) h
        rwa [hu] at this
      cases err with
      | none => exact ih s1 h1
      | some e => exact h1

theorem adjust_loop_ok_quantityOf (wid : String) (f : LineItem → Int) :
    ∀ (items : List LineItem) (s s' : InvState),
      adjust_loop s wid f items = (s', none) → ∀ p w,
      quantityOf s'.records p w = quantityOf s.records p w +
        (if w = wid then ((items.filter (fun it => it.productId == p)).map f).sum
         else 0) := by
  intro items
  induction items with
  | nil =>
    intro s s' h p w
    simp only [adjust_loop, Prod.mk.injEq] at h
    simp [← h.1]
  | cons it rest ih =>
    intro s s' h p w
    simp only [adjust_loop] at h
    cases hu : update_inventory s it.productId wid (f it) with
    | mk s1 err =>
      rw [hu] at h
      cases err with
      | some e => simp at h
      | none =>
        have h2 : adjust_loop s1 wid f rest = (s', none) := h
        have hstep := update_inventory_ok_quantityOf hu p w
        have hrest := ih s1 s' h2 p w
        rw [hrest, hstep]
        by_cases hw : w = wid
        · subst hw
          by_cases hp : it.productId = p
          · subst hp
            rw [List.filter_cons_of_pos (by simp)]
            simp
            ring
          · rw [List.filter_cons_of_neg (by simp [hp])]
            have hk : ¬(p = it.productId ∧ w = w) := fun hc => hp hc.1.symm
            rw [if_neg hk]
            simp
        · simp [hw]

theorem adjust_loop_ok_hasRec_items (wid : String) (f : LineItem → Int) :
    ∀ (items : List LineItem) (s s' : InvState),
      adjust_loop s wid f items = (s', none) →
      ∀ it ∈ items, hasRec s'.records it.productId wid = true := by
  intro items
  induction items with
  | nil => intro s s' h it hit; simp at hit
  | cons it0 rest ih =>
    intro s s' h it hit
    simp only [adjust_loop] at h
    cases hu : update_inventory s it0.productId wid (f it0) with
    | mk s1 err =>
      rw [hu] at h
      cases err with
      | some e => simp at h
      | none =>
        have h2 : adjust_loop s1 wid f rest = (s', none) := h
        rcases List.mem_cons.mp hit with rfl | hmem
        · have hself := update_inventory_ok_hasRec_self hu
          have := adjust_loop_hasRec_mono wid f rest s1 hself
          rw [h2] at this
          exact this
        · exact ih s1 s' h2 it hmem

theorem restore_loop_ok (wid : String) :
    ∀ (items : List LineItem) (s : InvState),
      invNonneg s.records →
      (∀ it ∈ items, 0 ≤ it.quantity) →
      (∀ it ∈ items, hasRec s.records it.productId wid = true ∨ 0 < it.quantity) →
      (adjust_loop s wid (fun it => it.quantity) items).2 = none := by
  intro items
  induction items with
  | nil => intro s _ _ _; rfl
  | cons it rest ih =>
    intro s hnn hq hpres
    have hstep : (update_inventory s it.productId wid it.quantity).2 = none := by
      apply update_inventory_ok_of
      rcases hpres it (List.mem_cons_self it rest) with hh | hh
      · rw [hh]
        simp only [if_true]
        have h0 : 0 ≤ quantityOf s.records it.productId wid := by
          rw [quantityOf]
          cases hf : s.records.find? (matchKey it.productId wid) with
          | none => simp
          | some r => exact hnn r (List.mem_of_find?_eq_some hf)
        have := hq it (List.mem_cons_self it rest)
        omega
      · cases hhr : hasRec s.records it.productId wid with
        | true =>
          simp only [if_true]
          have h0 : 0 ≤ quantityOf s.records it.productId wid := by
            rw [quantityOf]
            cases hf : s.records.find? (matchKey it.productId wid) with
            | none => simp
            | some r => exact hnn r (List.mem_of_find?_eq_some hf)
          have := hq it (List.mem_cons_self it rest)
          omega
        | false => simpa using hh
    simp only [adjust_loop]
    cases hu : update_inventory s it.productId wid it.quantity with
    | mk s1 err =>
      cases err with
      | some e => rw [hu] at hstep; simp at hstep
      | none =>
        show (adjust_loop s1 wid (fun it => it.quantity) rest).2 = none
        apply ih s1
        · have := update_inventory_nonneg it.productId wid it.quantity hnn
          rwa [hu] at this
        · exact fun x hx => hq x (List.mem_cons_of_mem it hx)
        · intro x hx
          rcases hpres x (List.mem_cons_of_mem it hx) with hh | hh
          · left
            have := update_inventory_hasRec_mono it.productId wid it.quantity hh
            rwa [hu] at this
          · exact Or.inr hh

/-! Lemmas about the invoice sequencer. -/

theorem find?_update_counter (t : String) (cur : Int) (l : List InvoiceCounter) :
    (updateFirstP (fun c => c.counterType == t)
        (fun c => { c with currentNumber := cur }) l).find?
      (fun c => c.counterType == t) =
      (l.find? (fun c => c.counterType == t)).map
        (fun c => { c with currentNumber := cur }) :=
  find?_updateFirstP (fun y hy => hy)

theorem counterVal_next (cs : List InvoiceCounter) (t : String) (f : Nat) :
    counterVal (get_next_invoice_number cs t f).2.1 t =
      some ((counterVal cs t).getD 0 + 1) := by
  cases hf : cs.find? (fun c => c.counterType == t) with
  | none =>
    have hnew : (cs ++ [(⟨freshName "ic" f, t, 0⟩ : InvoiceCounter)]).find?
        (fun c => c.counterType == t) = some ⟨freshName "ic" f, t, 0⟩ := by
      rw [find?_append_of_none _ hf]
      simp [List.find?_cons]
    simp only [get_next_invoice_number, hf, counterVal]
    rw [find?_update_counter, hnew]
    simp
  | some c =>
    simp only [get_next_invoice_number, hf, counterVal]
    rw [find?_update_counter, hf]
    rfl

theorem next_invoice_ret (cs : List InvoiceCounter) (t : String) (f : Nat) :
    (get_next_invoice_number cs t f).1 =
      prefixFor t ++ "-" ++ toString ((counterVal cs t).getD 0 + 1) := by
  cases hf : cs.find? (fun c => c.counterType == t) with
  | none =>
    have hnew : (cs ++ [(⟨freshName "ic" f, t, 0⟩ : InvoiceCounter)]).find?
        (fun c => c.counterType == t) = some ⟨freshName "ic" f, t, 0⟩ := by
      rw [find?_append_of_none _ hf]
      simp [List.find?_cons]
    simp only [get_next_invoice_number, hf, counterVal]
    rw [hnew]
    simp
  | some c =>
    simp only [get_next_invoice_number, hf, counterVal]

theorem counterVal_next_other (cs : List InvoiceCounter) (t : String) (f : Nat)
    (t' : String) (hne : t' ≠ t) :
    counterVal (get_next_invoice_number cs t f).2.1 t' = counterVal cs t' := by
  have hdisj : ∀ y : InvoiceCounter, (y.counterType == t) = true →
      (y.counterType == t') = false := by
    intro y hy
    rw [beq_iff_eq] at hy
    rw [beq_eq_false_iff_ne, hy]
    exact fun h => hne h.symm
  have hupd : ∀ (cur : Int) (l : List InvoiceCounter),
      (updateFirstP (fun c => c.counterType == t)
          (fun c => { c with currentNumber := cur }) l).find?
        (fun c => c.counterType == t') = l.find? (fun c => c.counterType == t') :=
    fun cur l => find?_updateFirstP_other hdisj (fun y => rfl)
  cases hf : cs.find? (fun c => c.counterType == t) with
  | none =>
    simp only [get_next_invoice_number, hf, counterVal]
    rw [hupd]
    cases hg : cs.find? (fun c => c.counterType == t') with
    | none =>
      rw [find?_append_of_none _ hg]
      have hnt : ((⟨freshName "ic" f, t, 0⟩ : InvoiceCounter).counterType == t') = false := by
        rw [beq_eq_false_iff_ne]
        exact fun h => hne h.symm
      simp [List.find?_cons, hnt, hg]
    | some c =>
      rw [find?_append_of_some _ hg]
  | some c =>
    simp only [get_next_invoice_number, hf, counterVal]
    rw [hupd]

theorem iterInvoice_spec (t : String) :
    ∀ (n : Nat) (cs : List InvoiceCounter) (f : Nat),
      (iterInvoice cs t f n).1 = (List.range n).map
        (fun k : Nat => prefixFor t ++ "-" ++
          toString ((counterVal cs t).getD 0 + (k : Int) + 1)) ∧
      counterVal (iterInvoice cs t f n).2.1 t =
        (if n = 0 then counterVal cs t
         else some ((counterVal cs t).getD 0 + (n : Int))) := by
  intro n
  induction n with
  | zero => intro cs f; simp [iterInvoice]
  | succ n ih =>
    intro cs f
    simp only [iterInvoice]
    have h1 := counterVal_next cs t f
    have hr := next_invoice_ret cs t f
    obtain ⟨ihv, ihc⟩ := ih (get_next_invoice_number cs t f).2.1
      (get_next_invoice_number cs t f).2.2
    constructor
    · rw [List.range_succ_eq_map, List.map_cons, List.map_map, hr, ihv, h1]
      congr 1
      · simp
      · apply list_map_congr
        intro a _
        simp only [Function.comp_apply, Option.getD_some]
        congr 2
        push_cast
        ring
    · rw [ihc, h1]
      cases n with
      | zero => simp
      | succ m =>
        simp only [Nat.succ_ne_zero, if_false, Option.getD_some]
        congr 1
        push_cast
        ring

/-! Lemmas about the delivery scheduler. -/

theorem day_map_lt {d : String} {w : Nat} (h : day_map d = some w) : w < 7 := by
  simp only [day_map] at h
  split_ifs at h <;> simp_all <;> omega

theorem day_map_guards {d : String} {w : Nat} (h : day_map d = some w) :
    (d == "Any Day") = false ∧ (d == "") = false := by
  refine ⟨?_, ?_⟩
  · rw [beq_eq_false_iff_ne]
    intro hd
    subst hd
    rw [show day_map "Any Day" = none from rfl] at h
    cases h
  · rw [beq_eq_false_iff_ne]
    intro hd
    subst hd
    rw [show day_map "" = none from rfl] at h
    cases h

theorem delivery_dates_mem (t w : Nat) (x : Nat) :
    x ∈ delivery_dates t w ↔ (t ≤ x ∧ x < t + 31 ∧ x % 7 = w) := by
  simp only [delivery_dates, List.mem_map, List.mem_filter, List.mem_range,
    beq_iff_eq]
  constructor
  · rintro ⟨k, ⟨hk, hw⟩, rfl⟩
    exact ⟨Nat.le_add_right t k, by omega, hw⟩
  · rintro ⟨h1, h2, h3⟩
    refine ⟨x - t, ⟨by omega, ?_⟩, by omega⟩
    rw [show t + (x - t) = x from by omega]
    exact h3

theorem delivery_dates_sorted (t w : Nat) :
    List.Pairwise (· < ·) (delivery_dates t w) := by
  rw [delivery_dates, List.pairwise_map]
  exact ((List.pairwise_lt_range 31).filter _).imp (fun hab => by omega)

theorem delivery_dates_len (t w : Nat) (hw : w < 7) :
    4 ≤ (delivery_dates t w).length ∧ (delivery_dates t w).length ≤ 5 := by
  have hcongr : (List.range 31).filter (fun k => (t + k) % 7 == w) =
      (List.range 31).filter (fun k => (t % 7 + k) % 7 == w) := by
    apply list_filter_congr
    intro a _
    have h1 : (t + a) % 7 = (t % 7 + a) % 7 := by omega
    rw [h1]
  have key : ∀ r : Nat, r < 7 → ∀ w2 : Nat, w2 < 7 →
      4 ≤ ((List.range 31).filter (fun k => (r + k) % 7 == w2)).length ∧
      ((List.range 31).filter (fun k => (r + k) % 7 == w2)).length ≤ 5 := by
    decide
  rw [delivery_dates, List.length_map, hcongr]
  exact key (t % 7) (Nat.mod_lt t (by norm_num)) w hw

theorem distribute_dates (q rem : Int) (dy : String) :
    ∀ (dates : List Nat) (i : Nat),
      (distribute q rem dy i dates).map (fun e => e.date) = dates := by
  intro dates
  induction dates with
  | nil => intro i; rfl
  | cons d rest ih => intro i; simp [distribute, ih]

theorem distribute_mem (q rem : Int) (dy : String) :
    ∀ (dates : List Nat) (i : Nat) (e : ScheduleEntry),
      e ∈ distribute q rem dy i dates → e.day = dy ∧ ∃ j, i ≤ j ∧
        e.boxes = q + if (j : Int) < rem then 1 else 0 := by
  intro dates
  induction dates with
  | nil => intro i e he; simp [distribute] at he
  | cons d rest ih =>
    intro i e he
    simp only [distribute, List.mem_cons] at he
    rcases he with rfl | he
    · exact ⟨rfl, i, le_refl i, rfl⟩
    · rcases ih (i + 1) e he with ⟨hd, j, hj, hb⟩
      exact ⟨hd, j, by omega, hb⟩

theorem distribute_pairwise (q rem : Int) (dy : String) :
    ∀ (dates : List Nat) (i : Nat), List.Pairwise (· < ·) dates →
      List.Pairwise (fun e1 e2 : ScheduleEntry =>
        e1.date < e2.date ∧ e2.boxes ≤ e1.boxes) (distribute q rem dy i dates) := by
  intro dates
  induction dates with
  | nil => intro i _; exact List.Pairwise.nil
  | cons d rest ih =>
    intro i hp
    rcases List.pairwise_cons.mp hp with ⟨hd, hrest⟩
    simp only [distribute]
    refine List.pairwise_cons.mpr ⟨?_, ih (i + 1) hrest⟩
    intro e he
    have hdate : e.date ∈ rest := by
      have hm := distribute_dates q rem dy rest (i + 1)
      rw [← hm]
      exact List.mem_map_of_mem _ he
    refine ⟨hd e.date hdate, ?_⟩
    rcases distribute_mem q rem dy rest (i + 1) e he with ⟨_, j, hj, hb⟩
    rw [hb]
    simp only
    have hij : i ≤ j := by omega
    split_ifs <;> omega

theorem distribute_boxes (q rem : Int) (dy : String) :
    ∀ (dates : List Nat) (i : Nat),
      (distribute q rem dy i dates).map (fun e => e.boxes) =
        (List.range dates.length).map
          (fun j => q + if ((i + j : Nat) : Int) < rem then 1 else 0) := by
  intro dates
  induction dates with
  | nil => intro i; rfl
  | cons d rest ih =>
    intro i
    simp only [distribute, List.map_cons, List.length_cons]
    rw [List.range_succ_eq_map, List.map_cons, List.map_map]
    refine List.cons_eq_cons.mpr ⟨by simp, ?_⟩
    rw [ih (i + 1)]
    apply list_map_congr
    intro a _
    show q + (if ((i + 1 + a : Nat) : Int) < rem then 1 else 0) =
      q + (if ((i + (a + 1) : Nat) : Int) < rem then 1 else 0)
    rw [show i + 1 + a = i + (a + 1) from by omega]

theorem sum_range_ite (q rem : Int) (hrem : 0 ≤ rem) :
    ∀ n : Nat,
      ((List.range n).map (fun j : Nat => q + if (j : Int) < rem then 1 else 0)).sum =
        n * q + min rem n := by
  intro n
  induction n with
  | zero =>
    simp
    omega
  | succ n ih =>
    rw [List.range_succ, List.map_append, List.sum_append, ih]
    simp only [List.map_cons, List.map_nil, List.sum_cons, List.sum_nil]
    have hmin : min rem ((n : Int) + 1) = min rem (n : Int) +
        (if (n : Int) < rem then 1 else 0) := by
      split_ifs with h1 <;> omega
    push_cast
    rw [hmin]
    split_ifs with h1 <;> ring

/-- Inventory projection of the successful tail of `add_sale`: both status
branches persist the loop's inventory unchanged. -/
theorem finishAddSale_inventory (db : DB) (s1 : InvState) (req : SaleRequest) :
    (finishAddSale db s1 req).1.inventory = s1.records := by
  simp only [finishAddSale]
  split <;> rfl

/-- Both status branches of the successful tail of `add_sale` return an ok
result. -/
theorem finishAddSale_ok (db : DB) (s1 : InvState) (req : SaleRequest) :
    (finishAddSale db s1 req).2.isOk = true := by
  simp only [finishAddSale]
  split <;> rfl

/-! The claim theorems. -/

/-- Claim C3: the ledger's adjust operation `update_inventory` creates a
record with quantity = delta when none exists and delta > 0; fails with the
insufficient-stock error leaving the state untouched when none exists and
delta ≤ 0, or when the stored quantity plus delta would be negative; and
otherwise stores quantity + delta. -/
theorem C3_update_inventory_contract :
    ∀ (recs : List InventoryRecord) (n : Nat) (pid wid : String) (delta : Int),
      (hasRec recs pid wid = false → 0 < delta →
        (update_inventory ⟨recs, n⟩ pid wid delta).2 = none ∧
        quantityOf (update_inventory ⟨recs, n⟩ pid wid delta).1.records pid wid
          = delta) ∧
      (hasRec recs pid wid = false → delta ≤ 0 →
        update_inventory ⟨recs, n⟩ pid wid delta =
          (⟨recs, n⟩, some ("Not enough stock for product " ++ pid))) ∧
      (hasRec recs pid wid = true → quantityOf recs pid wid + delta < 0 →
        update_inventory ⟨recs, n⟩ pid wid delta =
          (⟨recs, n⟩, some ("Not enough stock for product " ++ pid))) ∧
      (hasRec recs pid wid = true → 0 ≤ quantityOf recs pid wid + delta →
        (update_inventory ⟨recs, n⟩ pid wid delta).2 = none ∧
        quantityOf (update_inventory ⟨recs, n⟩ pid wid delta).1.records pid wid
          = quantityOf recs pid wid + delta) := by
  intro recs n pid wid delta
  refine ⟨?_, ?_, ?_, ?_⟩
  · intro h hd
    cases hf : recs.find? (matchKey pid wid) with
    | some r => simp [hasRec, hf] at h
    | none =>
      have heq : update_inventory ⟨recs, n⟩ pid wid delta =
          (⟨recs ++ [⟨freshName "inv" n, pid, wid, delta⟩], n + 1⟩, none) := by
        simp [update_inventory, hf, hd]
      rw [heq]
      refine ⟨rfl, ?_⟩
      rw [show (⟨recs ++ [⟨freshName "inv" n, pid, wid, delta⟩], n + 1⟩ :
          InvState).records = recs ++ [⟨freshName "inv" n, pid, wid, delta⟩] from rfl]
      rw [quantityOf_append_of_none _ hf]
      simp [matchKey]
  · intro h hd
    cases hf : recs.find? (matchKey pid wid) with
    | some r => simp [hasRec, hf] at h
    | none =>
      have hd2 : ¬ (0 < delta) := not_lt.mpr hd
      simp [update_inventory, hf, hd2]
  · intro h hq
    cases hf : recs.find? (matchKey pid wid) with
    | none => simp [hasRec, hf] at h
    | some r =>
      have hq2 : r.quantity + delta < 0 := by simpa [quantityOf, hf] using hq
      simp [update_inventory, hf, hq2]
  · intro h hq
    cases hf : recs.find? (matchKey pid wid) with
    | none => simp [hasRec, hf] at h
    | some r =>
      have hq2 : ¬ (r.quantity + delta < 0) :=
        not_lt.mpr (by simpa [quantityOf, hf] using hq)
      have heq : update_inventory ⟨recs, n⟩ pid wid delta =
          (⟨setQtyFirst recs pid wid (r.quantity + delta), n⟩, none) := by
        simp [update_inventory, hf, hq2]
      rw [heq]
      refine ⟨rfl, ?_⟩
      rw [show (⟨setQtyFirst recs pid wid (r.quantity + delta), n⟩ :
          InvState).records = setQtyFirst recs pid wid (r.quantity + delta) from rfl]
      rw [quantityOf_setQtyFirst_self recs pid wid _ (by simp [hasRec, hf])]
      simp [quantityOf, hf]

/-- Witness for C3: concrete creation, rejection and update runs of
`update_inventory`. -/
theorem C3_update_inventory_contract_witness :
    ((update_inventory ⟨[], 0⟩ "P" "W" 5).2 = none ∧
      quantityOf (update_inventory ⟨[], 0⟩ "P" "W" 5).1.records "P" "W" = 5) ∧
    update_inventory ⟨[⟨"i0", "P", "W", 2⟩], 7⟩ "P" "W" (-3) =
      (⟨[⟨"i0", "P", "W", 2⟩], 7⟩, some ("Not enough stock for product " ++ "P")) ∧
    quantityOf (update_inventory ⟨[⟨"i0", "P", "W", 2⟩], 7⟩ "P" "W" (-2)).1.records
      "P" "W" = 0 := by
  refine ⟨?_, ?_, ?_⟩
  · exact (C3_update_inventory_contract [] 0 "P" "W" 5).1 (by decide) (by decide)
  · exact (C3_update_inventory_contract [⟨"i0", "P", "W", 2⟩] 7 "P" "W" (-3)).2.2.1
      (by decide) (by decide)
  · have h := (C3_update_inventory_contract [⟨"i0", "P", "W", 2⟩] 7 "P" "W" (-2)).2.2.2
      (by decide) (by decide)
    rw [h.2]
    decide

/-- Claim C9: `calculate_delivery_schedule` is a pure function of the
preferred day, the box count and the reference day only; in particular its
`start_date_str` argument never influences the output. -/
theorem C9_schedule_pure :
    ∀ (s1 s2 : String) (d : Option String) (b : Int) (t : Nat),
      calculate_delivery_schedule s1 d b t = calculate_delivery_schedule s2 d b t :=
  fun _ _ _ _ _ => rfl

/-- Claim C10: the availability check compares each line item independently
against the stored quantity, so a duplicated product whose items are each
individually covered passes even when their sum exceeds the stock. -/
theorem C10_check_ignores_duplicates :
    ∃ (recs : List InventoryRecord) (wid : String) (it1 it2 : LineItem),
      it1.productId = it2.productId ∧
      it1.quantity ≤ quantityOf recs it1.productId wid ∧
      it2.quantity ≤ quantityOf recs it2.productId wid ∧
      quantityOf recs it1.productId wid < it1.quantity + it2.quantity ∧
      check_stock_availability [it1, it2] wid recs = (true, "") := by
  refine ⟨[⟨"i0", "P", "W", 5⟩], "W", ⟨"P", 3⟩, ⟨"P", 3⟩, ?_, ?_, ?_, ?_, ?_⟩ <;>
    decide

/-- Claim C2, counterexample: a sales return whose original sale exists is
accepted and persisted, but the stored quantity of the returned product at
the supplied warehouse is left unchanged rather than increased by the
returned quantity. -/
theorem C2_counterexample :
    (add_sales_return
        ⟨[⟨"i0", "P", "W", 5⟩],
         [⟨"s1", "INV-1", "c", [⟨"P", 2⟩], 10, "2024-01-01", "Paid", some "W"⟩],
         [], [], [], [], 0⟩
        ⟨"s1", [⟨"P", 2⟩], "2024-01-02", some "W"⟩).2.isOk = true ∧
    (add_sales_return
        ⟨[⟨"i0", "P", "W", 5⟩],
         [⟨"s1", "INV-1", "c", [⟨"P", 2⟩], 10, "2024-01-01", "Paid", some "W"⟩],
         [], [], [], [], 0⟩
        ⟨"s1", [⟨"P", 2⟩], "2024-01-02", some "W"⟩).1.returns.length = 1 ∧
    quantityOf (add_sales_return
        ⟨[⟨"i0", "P", "W", 5⟩],
         [⟨"s1", "INV-1", "c", [⟨"P", 2⟩], 10, "2024-01-01", "Paid", some "W"⟩],
         [], [], [], [], 0⟩
        ⟨"s1", [⟨"P", 2⟩], "2024-02-02", some "W"⟩).1.inventory "P" "W" = 5 ∧
    (5 : Int) ≠ 5 + 2 := by
  refine ⟨?_, ?_, ?_, ?_⟩ <;> decide

/-- Claim C2 as amended: when the referenced original sale (retail or
wholesale) exists, `add_sales_return` persists the SalesReturn row and
performs no inventory mutation at all (the request's warehouseId is never
read); when it does not exist the call fails with 404 and changes nothing. -/
theorem C2_sales_return_spec :
    ∀ (db : DB) (req : ReturnRequest),
      (((findSaleById db.sales req.saleId).isSome ||
          (db.wsales.find? (fun s => s.id == req.saleId)).isSome) = true →
        add_sales_return db req =
          ({ db with returns :=
              db.returns ++ [⟨req.saleId, req.returnedProducts, req.date⟩] },
           Except.ok ()) ∧
        (add_sales_return db req).1.inventory = db.inventory) ∧
      (((findSaleById db.sales req.saleId).isSome ||
          (db.wsales.find? (fun s => s.id == req.saleId)).isSome) = false →
        add_sales_return db req = (db, Except.error "Original sale not found")) := by
  intro db req
  constructor
  · intro h
    constructor
    · simp [add_sales_return, h]
    · simp [add_sales_return, h]
  · intro h
    simp [add_sales_return, h]

/-- Witness for C2 (amended): a concrete return against an existing sale. -/
theorem C2_sales_return_spec_witness :
    (add_sales_return
        ⟨[⟨"i0", "P", "W", 5⟩],
         [⟨"s1", "INV-1", "c", [⟨"P", 2⟩], 10, "2024-01-01", "Paid", some "W"⟩],
         [], [], [], [], 0⟩
        ⟨"s1", [⟨"P", 2⟩], "2024-01-02", some "W"⟩).1.inventory =
      [⟨"i0", "P", "W", 5⟩] ∧
    (add_sales_return
        ⟨[⟨"i0", "P", "W", 5⟩],
         [⟨"s1", "INV-1", "c", [⟨"P", 2⟩], 10, "2024-01-01", "Paid", some "W"⟩],
         [], [], [], [], 0⟩
        ⟨"s0", [⟨"P", 2⟩], "2024-01-02", some "W"⟩).2.isOk = false := by
  constructor
  · exact (C2_sales_return_spec
      ⟨[⟨"i0", "P", "W", 5⟩],
       [⟨"s1", "INV-1", "c", [⟨"P", 2⟩], 10, "2024-01-01", "Paid", some "W"⟩],
       [], [], [], [], 0⟩
      ⟨"s1", [⟨"P", 2⟩], "2024-01-02", some "W"⟩).1 (by decide) |>.2
  · have h := (C2_sales_return_spec
      ⟨[⟨"i0", "P", "W", 5⟩],
       [⟨"s1", "INV-1", "c", [⟨"P", 2⟩], 10, "2024-01-01", "Paid", some "W"⟩],
       [], [], [], [], 0⟩
      ⟨"s0", [⟨"P", 2⟩], "2024-01-02", some "W"⟩).2 (by decide)
    rw [h]
    decide

/-- Claim C5: every `get_next_invoice_number` call reads-or-creates the
counter row, increments the stored value by exactly one, leaves other
counters alone, and returns `PREFIX-n` with the new value `n`, PREFIX being
SUB / INV / WS for the three known types and `N/A` otherwise; N successive
calls therefore return the N contiguous values `v+1 … v+N` with no
duplicates and no gaps, and the stored counter strictly increases. -/
theorem C5_invoice_sequencer :
    (∀ (cs : List InvoiceCounter) (t : String) (f : Nat),
      counterVal (get_next_invoice_number cs t f).2.1 t =
        some ((counterVal cs t).getD 0 + 1)) ∧
    (∀ (cs : List InvoiceCounter) (t : String) (f : Nat),
      (get_next_invoice_number cs t f).1 =
        prefixFor t ++ "-" ++ toString ((counterVal cs t).getD 0 + 1)) ∧
    (∀ (cs : List InvoiceCounter) (t : String) (f : Nat) (t' : String),
      t' ≠ t →
      counterVal (get_next_invoice_number cs t f).2.1 t' = counterVal cs t') ∧
    prefixFor "subscription" = "SUB" ∧
    prefixFor "sale" = "INV" ∧
    prefixFor "wholesale_sale" = "WS" ∧
    (∀ t : String, t ≠ "subscription" → t ≠ "sale" → t ≠ "wholesale_sale" →
      prefixFor t = "N/A") ∧
    (∀ (cs : List InvoiceCounter) (t : String) (f : Nat) (n : Nat),
      (iterInvoice cs t f n).1 = (List.range n).map
        (fun k : Nat => prefixFor t ++ "-" ++
          toString ((counterVal cs t).getD 0 + (k : Int) + 1))) ∧
    (∀ (cs : List InvoiceCounter) (t : String) (f : Nat) (n : Nat), 0 < n →
      counterVal (iterInvoice cs t f n).2.1 t =
        some ((counterVal cs t).getD 0 + (n : Int))) := by
  refine ⟨counterVal_next, next_invoice_ret,
    fun cs t f t' h => counterVal_next_other cs t f t' h, rfl, rfl, rfl,
    ?_, ?_, ?_⟩
  · intro t h1 h2 h3
    simp [prefixFor, h1, h2, h3]
  · intro cs t f n
    exact (iterInvoice_spec t n cs f).1
  · intro cs t f n hn
    rw [(iterInvoice_spec t n cs f).2, if_neg (by omega : ¬ n = 0)]

/-- Witness for C5: three calls from an empty store produce INV-1..INV-3 and
a stored counter of 3; an unknown type gets the `N/A` prefix; a call for one
type leaves another type's counter unchanged. -/
theorem C5_invoice_sequencer_witness :
    counterVal (iterInvoice [] "sale" 0 3).2.1 "sale" = some 3 ∧
    (iterInvoice [] "sale" 0 3).1 = ["INV-1", "INV-2", "INV-3"] ∧
    counterVal (get_next_invoice_number [⟨"ic0", "sale", 41⟩] "wholesale_sale"
      5).2.1 "sale" = some 41 ∧
    prefixFor "foo" = "N/A" := by
  refine ⟨?_, ?_, ?_, ?_⟩
  · have h := C5_invoice_sequencer.2.2.2.2.2.2.2.2 [] "sale" 0 3 (by decide)
    rw [h]
    decide
  · have h := C5_invoice_sequencer.2.2.2.2.2.2.2.1 [] "sale" 0 3
    rw [h]
    decide
  · have h := C5_invoice_sequencer.2.2.1 [⟨"ic0", "sale", 41⟩] "wholesale_sale"
      5 "sale" (by decide)
    rw [h]
    decide
  · exact C5_invoice_sequencer.2.2.2.2.2.2.1 "foo" (by decide) (by decide)
      (by decide)

/-- Claim C4, counterexample: the direct inventory update endpoint stores a
negative quantity unchecked, breaking the non-negativity invariant. -/
theorem C4_counterexample :
    invNonneg ((⟨[⟨"i0", "P", "W", 5⟩], [], [], [], [], [], 0⟩ : DB)).inventory ∧
    ¬ invNonneg (update_inventory_item
        ⟨[⟨"i0", "P", "W", 5⟩], [], [], [], [], [], 0⟩
        "i0" (some (-3))).1.inventory := by
  constructor
  · decide
  · decide

/-- Claim C4 as amended: starting from a non-negative inventory, sale
creation and deletion, wholesale sale creation and deletion and sales-return
creation keep every stored quantity non-negative unconditionally; the stock
addition endpoint preserves the invariant only when the supplied change keeps
the affected stored quantity non-negative, and the direct inventory update
endpoint only when the supplied quantity is non-negative — both accept
negative values unchecked. -/
theorem C4_nonneg_invariant :
    ∀ db : DB, invNonneg db.inventory →
      (∀ req : SaleRequest, invNonneg (add_sale db req).1.inventory) ∧
      (∀ sid : String, invNonneg (delete_sale db sid).1.inventory) ∧
      (∀ req : WSaleRequest, invNonneg (add_wholesale_sale db req).1.inventory) ∧
      (∀ sid : String, invNonneg (delete_wholesale_sale db sid).1.inventory) ∧
      (∀ (pid wid : String) (q : Int), 0 ≤ quantityOf db.inventory pid wid + q →
        invNonneg (add_inventory_stock db pid wid q).1.inventory) ∧
      (∀ (rid : String) (newq : Option Int), (∀ x, newq = some x → 0 ≤ x) →
        invNonneg (update_inventory_item db rid newq).1.inventory) ∧
      (∀ req : ReturnRequest, invNonneg (add_sales_return db req).1.inventory) := by
  intro db hnn
  refine ⟨?_, ?_, ?_, ?_, ?_, ?_, ?_⟩
  · intro req
    by_cases h1 : strFalsy req.warehouseId
    · simpa [add_sale, h1] using hnn
    · by_cases h2 : req.products.isEmpty
      · simpa [add_sale, h1, h2] using hnn
      · by_cases h3 : (check_stock_availability req.products
            (req.warehouseId.getD "") db.inventory).1
        · rcases hl : adjust_loop ⟨db.inventory, db.nextId⟩
              (req.warehouseId.getD "") (fun it => -it.quantity) req.products
            with ⟨s1, err⟩
          have hs1 : invNonneg s1.records := by
            have hh := adjust_loop_nonneg (req.warehouseId.getD "")
              (fun it => -it.quantity) req.products ⟨db.inventory, db.nextId⟩ hnn
            rwa [hl] at hh
          cases err with
          | none =>
            have heq : add_sale db req = finishAddSale db s1 req := by
              simp [add_sale, h1, h2, h3, hl]
            rw [heq, finishAddSale_inventory]
            exact hs1
          | some e =>
            have heq : (add_sale db req).1.inventory = s1.records := by
              simp [add_sale, h1, h2, h3, hl]
            rw [heq]
            exact hs1
        · simpa [add_sale, h1, h2, h3] using hnn
  · intro sid
    cases hf : findSaleById db.sales sid with
    | none => simpa [delete_sale, hf] using hnn
    | some sale =>
      by_cases h1 : strFalsy sale.warehouseId
      · simpa [delete_sale, hf, h1] using hnn
      · rcases hl : adjust_loop ⟨db.inventory, db.nextId⟩
            (sale.warehouseId.getD "") (fun it => it.quantity) sale.products
          with ⟨s1, err⟩
        have hs1 : invNonneg s1.records := by
          have hh := adjust_loop_nonneg (sale.warehouseId.getD "")
            (fun it => it.quantity) sale.products ⟨db.inventory, db.nextId⟩ hnn
          rwa [hl] at hh
        cases err with
        | none =>
          have heq : (delete_sale db sid).1.inventory = s1.records := by
            simp [delete_sale, hf, h1, hl]
          rw [heq]
          exact hs1
        | some e =>
          have heq : (delete_sale db sid).1.inventory = s1.records := by
            simp [delete_sale, hf, h1, hl]
          rw [heq]
          exact hs1
  · intro req
    by_cases h3 : (check_stock_availability req.products
        (req.warehouseId.getD "default") db.inventory).1
    · rcases hl : adjust_loop ⟨db.inventory, db.nextId⟩
          (req.warehouseId.getD "default") (fun it => -it.quantity) req.products
        with ⟨s1, err⟩
      have hs1 : invNonneg s1.records := by
        have hh := adjust_loop_nonneg (req.warehouseId.getD "default")
          (fun it => -it.quantity) req.products ⟨db.inventory, db.nextId⟩ hnn
        rwa [hl] at hh
      cases err with
      | none =>
        have heq : (add_wholesale_sale db req).1.inventory = s1.records := by
          simp [add_wholesale_sale, h3, hl]
        rw [heq]
        exact hs1
      | some e =>
        have heq : (add_wholesale_sale db req).1.inventory = s1.records := by
          simp [add_wholesale_sale, h3, hl]
        rw [heq]
        exact hs1
    · simpa [add_wholesale_sale, h3] using hnn
  · intro sid
    cases hf : db.wsales.find? (fun s => s.id == sid) with
    | none => simpa [delete_wholesale_sale, hf] using hnn
    | some sale =>
      by_cases h1 : strFalsy sale.warehouseId
      · simpa [delete_wholesale_sale, hf, h1] using hnn
      · rcases hl : adjust_loop ⟨db.inventory, db.nextId⟩
            (sale.warehouseId.getD "") (fun it => it.quantity) sale.products
          with ⟨s1, err⟩
        have hs1 : invNonneg s1.records := by
          have hh := adjust_loop_nonneg (sale.warehouseId.getD "")
            (fun it => it.quantity) sale.products ⟨db.inventory, db.nextId⟩ hnn
          rwa [hl] at hh
        cases err with
        | none =>
          have heq : (delete_wholesale_sale db sid).1.inventory = s1.records := by
            simp [delete_wholesale_sale, hf, h1, hl]
          rw [heq]
          exact hs1
        | some e =>
          have heq : (delete_wholesale_sale db sid).1.inventory = s1.records := by
            simp [delete_wholesale_sale, hf, h1, hl]
          rw [heq]
          exact hs1
  · intro pid wid q hq
    cases hf : db.inventory.find? (matchKey pid wid) with
    | none =>
      have heq : (add_inventory_stock db pid wid q).1.inventory =
          db.inventory ++ [⟨freshName "inv" db.nextId, pid, wid, q⟩] := by
        simp [add_inventory_stock, hf]
      rw [heq]
      intro r hr
      rcases List.mem_append.mp hr with h1 | h1
      · exact hnn r h1
      · simp at h1
        subst h1
        simpa [quantityOf, hf] using hq
    | some r0 =>
      have heq : (add_inventory_stock db pid wid q).1.inventory =
          setQtyFirst db.inventory pid wid (r0.quantity + q) := by
        simp [add_inventory_stock, hf]
      rw [heq]
      intro r hr
      rcases mem_updateFirstP hr with h1 | ⟨y, hy, rfl⟩
      · exact hnn r h1
      · simpa [quantityOf, hf] using hq
  · intro rid newq hq
    cases hf : db.inventory.find? (fun r => r.id == rid) with
    | none => simpa [update_inventory_item, hf] using hnn
    | some r0 =>
      cases newq with
      | none => simpa [update_inventory_item, hf] using hnn
      | some x =>
        have heq : (update_inventory_item db rid (some x)).1.inventory =
            updateFirstP (fun r => r.id == rid)
              (fun r => { r with quantity := x }) db.inventory := by
          simp [update_inventory_item, hf]
        rw [heq]
        intro r hr
        rcases mem_updateFirstP hr with h1 | ⟨y, hy, rfl⟩
        · exact hnn r h1
        · simpa using hq x rfl
  · intro req
    by_cases h : ((findSaleById db.sales req.saleId).isSome ||
        (db.wsales.find? (fun s => s.id == req.saleId)).isSome) = true
    · simpa [add_sales_return, h] using hnn
    · simpa [add_sales_return, h] using hnn

/-- Witness for C4 (amended): a concrete non-negative store stays
non-negative under a sale creation, a stock addition that drains the stock to
zero, and a sales-return creation. -/
theorem C4_nonneg_invariant_witness :
    invNonneg (add_sale ⟨[⟨"i0", "P", "W", 5⟩], [], [], [], [], [], 0⟩
      ⟨some "W", [⟨"P", 3⟩], "c", 6, "2024-01-01", "Paid"⟩).1.inventory ∧
    invNonneg (add_inventory_stock ⟨[⟨"i0", "P", "W", 5⟩], [], [], [], [], [], 0⟩
      "P" "W" (-5)).1.inventory ∧
    invNonneg (update_inventory_item ⟨[⟨"i0", "P", "W", 5⟩], [], [], [], [], [], 0⟩
      "i0" (some 0)).1.inventory := by
  refine ⟨?_, ?_, ?_⟩
  · exact (C4_nonneg_invariant ⟨[⟨"i0", "P", "W", 5⟩], [], [], [], [], [], 0⟩
      (by decide)).1 ⟨some "W", [⟨"P", 3⟩], "c", 6, "2024-01-01", "Paid"⟩
  · exact (C4_nonneg_invariant ⟨[⟨"i0", "P", "W", 5⟩], [], [], [], [], [], 0⟩
      (by decide)).2.2.2.2.1 "P" "W" (-5) (by decide)
  · exact (C4_nonneg_invariant ⟨[⟨"i0", "P", "W", 5⟩], [], [], [], [], [], 0⟩
      (by decide)).2.2.2.2.2.1 "i0" (some 0) (by intro x hx; injection hx with h2; omega)

/-- Claim C1, counterexample: a sale whose duplicated line items pass the
per-item availability pre-check but fail at the second deduction is rejected
with no sale record, yet the first deduction stays committed: the stored
quantity drops from 5 to 2 instead of staying unchanged. -/
theorem C1_counterexample :
    (add_sale ⟨[⟨"i0", "P", "W", 5⟩], [], [], [], [], [], 0⟩
      ⟨some "W", [⟨"P", 3⟩, ⟨"P", 3⟩], "c", 6, "2024-01-01", "Paid"⟩).2.isOk
      = false ∧
    (add_sale ⟨[⟨"i0", "P", "W", 5⟩], [], [], [], [], [], 0⟩
      ⟨some "W", [⟨"P", 3⟩, ⟨"P", 3⟩], "c", 6, "2024-01-01", "Paid"⟩).1.sales
      = [] ∧
    quantityOf (add_sale ⟨[⟨"i0", "P", "W", 5⟩], [], [], [], [], [], 0⟩
      ⟨some "W", [⟨"P", 3⟩, ⟨"P", 3⟩], "c", 6, "2024-01-01", "Paid"⟩).1.inventory
      "P" "W" = 2 ∧
    quantityOf ((⟨[⟨"i0", "P", "W", 5⟩], [], [], [], [], [], 0⟩ : DB)).inventory
      "P" "W" = 5 ∧
    quantityOf (add_sale ⟨[⟨"i0", "P", "W", 5⟩], [], [], [], [], [], 0⟩
      ⟨some "W", [⟨"P", 3⟩, ⟨"P", 3⟩], "c", 6, "2024-01-01", "Paid"⟩).1.inventory
      "P" "W" ≠
      quantityOf ((⟨[⟨"i0", "P", "W", 5⟩], [], [], [], [], [], 0⟩ : DB)).inventory
      "P" "W" := by
  refine ⟨?_, ?_, ?_, ?_, ?_⟩ <;> decide

/-- Claim C1 as amended: every failing `add_sale` persists no sale record (and
no expense, counter, wholesale or return row); a failure detected by the
validation or by the availability pre-check leaves the whole state unchanged;
but when the pre-check passes and an individual deduction fails later, the
deductions already committed before the failure persist, so inventory can be
partially mutated. -/
theorem C1_add_sale_failure :
    (∀ (db : DB) (req : SaleRequest), (add_sale db req).2.isOk = false →
      (add_sale db req).1.sales = db.sales ∧
      (add_sale db req).1.expenses = db.expenses ∧
      (add_sale db req).1.counters = db.counters ∧
      (add_sale db req).1.wsales = db.wsales ∧
      (add_sale db req).1.returns = db.returns) ∧
    (∀ (db : DB) (req : SaleRequest),
      strFalsy req.warehouseId = false → req.products.isEmpty = false →
      (check_stock_availability req.products (req.warehouseId.getD "")
        db.inventory).1 = false →
      add_sale db req = (db, Except.error
        (check_stock_availability req.products (req.warehouseId.getD "")
          db.inventory).2)) ∧
    (∀ (db : DB) (req : SaleRequest),
      strFalsy req.warehouseId = true ∨ req.products.isEmpty = true →
      (add_sale db req).1 = db ∧ (add_sale db req).2.isOk = false) ∧
    (∀ (db : DB) (req : SaleRequest) (s1 : InvState) (e : String),
      strFalsy req.warehouseId = false → req.products.isEmpty = false →
      (check_stock_availability req.products (req.warehouseId.getD "")
        db.inventory).1 = true →
      adjust_loop ⟨db.inventory, db.nextId⟩ (req.warehouseId.getD "")
        (fun it => -it.quantity) req.products = (s1, some e) →
      add_sale db req =
        ({ db with inventory := s1.records, nextId := s1.nextId },
         Except.error e)) := by
  refine ⟨?_, ?_, ?_, ?_⟩
  · intro db req hfail
    by_cases h1 : strFalsy req.warehouseId
    · refine ⟨?_, ?_, ?_, ?_, ?_⟩ <;> simp [add_sale, h1]
    · by_cases h2 : req.products.isEmpty
      · refine ⟨?_, ?_, ?_, ?_, ?_⟩ <;> simp [add_sale, h1, h2]
      · by_cases h3 : (check_stock_availability req.products
            (req.warehouseId.getD "") db.inventory).1
        · rcases hl : adjust_loop ⟨db.inventory, db.nextId⟩
              (req.warehouseId.getD "") (fun it => -it.quantity) req.products
            with ⟨s1, err⟩
          cases err with
          | none =>
            exfalso
            have heq : add_sale db req = finishAddSale db s1 req := by
              simp [add_sale, h1, h2, h3, hl]
            rw [heq, finishAddSale_ok db s1 req] at hfail
            simp at hfail
          | some e =>
            refine ⟨?_, ?_, ?_, ?_, ?_⟩ <;> simp [add_sale, h1, h2, h3, hl]
        · refine ⟨?_, ?_, ?_, ?_, ?_⟩ <;> simp [add_sale, h1, h2, h3]
  · intro db req h1 h2 h3
    simp [add_sale, h1, h2, h3]
  · intro db req h
    by_cases h1 : strFalsy req.warehouseId
    · constructor <;> simp [add_sale, h1, Except.isOk, Except.toBool]
    · rcases h with h | h
      · exact absurd h (by simp [h1])
      · constructor <;> simp [add_sale, h1, h, Except.isOk, Except.toBool]
  · intro db req s1 e h1 h2 h3 hl
    simp [add_sale, h1, h2, h3, hl]

/-- Witness for C1 (amended): concrete runs of the three failure shapes. -/
theorem C1_add_sale_failure_witness :
    (add_sale ⟨[⟨"i0", "P", "W", 5⟩], [], [], [], [], [], 0⟩
      ⟨some "W", [⟨"P", 9⟩], "c", 6, "2024-01-01", "Paid"⟩).1.sales = [] ∧
    add_sale ⟨[⟨"i0", "P", "W", 5⟩], [], [], [], [], [], 0⟩
      ⟨some "W", [⟨"P", 9⟩], "c", 6, "2024-01-01", "Paid"⟩ =
      (⟨[⟨"i0", "P", "W", 5⟩], [], [], [], [], [], 0⟩,
       Except.error "Not enough stock for P. Required: 9, Available: 5") ∧
    (add_sale ⟨[⟨"i0", "P", "W", 5⟩], [], [], [], [], [], 0⟩
      ⟨none, [⟨"P", 1⟩], "c", 6, "2024-01-01", "Paid"⟩).1 =
      ⟨[⟨"i0", "P", "W", 5⟩], [], [], [], [], [], 0⟩ ∧
    add_sale ⟨[⟨"i0", "P", "W", 5⟩], [], [], [], [], [], 0⟩
      ⟨some "W", [⟨"P", 3⟩, ⟨"P", 3⟩], "c", 6, "2024-01-01", "Paid"⟩ =
      (⟨[⟨"i0", "P", "W", 2⟩], [], [], [], [], [], 0⟩,
       Except.error "Not enough stock for product P") := by
  refine ⟨?_, ?_, ?_, ?_⟩
  · exact ((C1_add_sale_failure.1 ⟨[⟨"i0", "P", "W", 5⟩], [], [], [], [], [], 0⟩
      ⟨some "W", [⟨"P", 9⟩], "c", 6, "2024-01-01", "Paid"⟩) (by decide)).1
  · have h := C1_add_sale_failure.2.1 ⟨[⟨"i0", "P", "W", 5⟩], [], [], [], [], [], 0⟩
      ⟨some "W", [⟨"P", 9⟩], "c", 6, "2024-01-01", "Paid"⟩
      (by decide) (by decide) (by decide)
    rw [h]
    rfl
  · exact (C1_add_sale_failure.2.2.1 ⟨[⟨"i0", "P", "W", 5⟩], [], [], [], [], [], 0⟩
      ⟨none, [⟨"P", 1⟩], "c", 6, "2024-01-01", "Paid"⟩ (Or.inl (by decide))).1
  · have h := C1_add_sale_failure.2.2.2 ⟨[⟨"i0", "P", "W", 5⟩], [], [], [], [], [], 0⟩
      ⟨some "W", [⟨"P", 3⟩, ⟨"P", 3⟩], "c", 6, "2024-01-01", "Paid"⟩
      ⟨[⟨"i0", "P", "W", 2⟩], 0⟩ "Not enough stock for product P"
      (by decide) (by decide) (by decide) (by decide)
    rw [h]

/-- Claim C6: the delivery schedule is empty when the preferred day is
absent, "Any Day", unrecognized, or the box count is non-positive; otherwise
its entries are exactly the dates of the 31-day window starting at the
reference day whose weekday matches the preferred day (4 or 5 of them), in
ascending date order with non-increasing box counts, the box list being
`floor(b/n)+1` for the first `b mod n` dates and `floor(b/n)` for the rest,
summing to exactly `b`. -/
theorem C6_schedule_spec :
    (∀ (s : String) (b : Int) (t : Nat),
      calculate_delivery_schedule s none b t = []) ∧
    (∀ (s : String) (b : Int) (t : Nat),
      calculate_delivery_schedule s (some "") b t = []) ∧
    (∀ (s : String) (b : Int) (t : Nat),
      calculate_delivery_schedule s (some "Any Day") b t = []) ∧
    (∀ (s d : String) (b : Int) (t : Nat), day_map d = none →
      calculate_delivery_schedule s (some d) b t = []) ∧
    (∀ (s d : String) (b : Int) (t : Nat), b ≤ 0 →
      calculate_delivery_schedule s (some d) b t = []) ∧
    (∀ (s d : String) (w : Nat) (b : Int) (t : Nat),
      day_map d = some w → 0 < b →
      (calculate_delivery_schedule s (some d) b t).map (fun e => e.date) =
        delivery_dates t w ∧
      (∀ x, x ∈ delivery_dates t w ↔ (t ≤ x ∧ x < t + 31 ∧ x % 7 = w)) ∧
      4 ≤ (delivery_dates t w).length ∧ (delivery_dates t w).length ≤ 5 ∧
      List.Pairwise (fun e1 e2 : ScheduleEntry =>
        e1.date < e2.date ∧ e2.boxes ≤ e1.boxes)
        (calculate_delivery_schedule s (some d) b t) ∧
      (calculate_delivery_schedule s (some d) b t).map (fun e => e.boxes) =
        (List.range (delivery_dates t w).length).map
          (fun i : Nat => b / ((delivery_dates t w).length : Int) +
            if (i : Int) < b % ((delivery_dates t w).length : Int) then 1
            else 0) ∧
      ((calculate_delivery_schedule s (some d) b t).map (fun e => e.boxes)).sum
        = b ∧
      (∀ e ∈ calculate_delivery_schedule s (some d) b t, e.day = d)) := by
  refine ⟨fun s b t => rfl, fun s b t => rfl, fun s b t => rfl, ?_, ?_, ?_⟩
  · intro s d b t hd
    unfold calculate_delivery_schedule
    split
    · rfl
    · rw [show (some d).getD "" = d from rfl, hd]
  · intro s d b t hb
    unfold calculate_delivery_schedule
    split
    · rfl
    · rw [show (some d).getD "" = d from rfl]
      cases hd : day_map d with
      | none => rfl
      | some w =>
        simp only
        rw [if_pos (Or.inr hb)]
  · intro s d w b t hd hb
    obtain ⟨hg1, hg2⟩ := day_map_guards hd
    have hw7 : w < 7 := day_map_lt hd
    obtain ⟨hlen4, hlen5⟩ := delivery_dates_len t w hw7
    have hne : (delivery_dates t w).isEmpty = false := by
      cases hdf : delivery_dates t w with
      | nil => rw [hdf] at hlen4; simp at hlen4
      | cons a l => rfl
    have hguard : (strFalsy (some d) ||
        ((some d : Option String) == some "Any Day")) = false := by
      show ((d == "") || (d == "Any Day")) = false
      rw [hg1, hg2]
      rfl
    have hn0 : (0 : Int) < ((delivery_dates t w).length : Int) := by
      have : (4 : Int) ≤ ((delivery_dates t w).length : Int) := by
        exact_mod_cast hlen4
      omega
    have hsched : calculate_delivery_schedule s (some d) b t =
        distribute (b / ((delivery_dates t w).length : Int))
          (b % ((delivery_dates t w).length : Int)) d 0 (delivery_dates t w) := by
      unfold calculate_delivery_schedule
      rw [if_neg (ne_true_of_eq_false hguard),
        show (some d).getD "" = d from rfl, hd]
      simp only
      rw [if_neg]
      rintro (h | h)
      · rw [hne] at h
        exact Bool.false_ne_true h
      · omega
    have hboxes : (calculate_delivery_schedule s (some d) b t).map
        (fun e => e.boxes) =
        (List.range (delivery_dates t w).length).map
          (fun i : Nat => b / ((delivery_dates t w).length : Int) +
            if (i : Int) < b % ((delivery_dates t w).length : Int) then 1
            else 0) := by
      rw [hsched, distribute_boxes]
      apply list_map_congr
      intro a _
      simp
    have hrem0 : 0 ≤ b % ((delivery_dates t w).length : Int) :=
      Int.emod_nonneg b (by omega)
    refine ⟨?_, fun x => delivery_dates_mem t w x, hlen4, hlen5, ?_, hboxes,
      ?_, ?_⟩
    · rw [hsched, distribute_dates]
    · rw [hsched]
      exact distribute_pairwise _ _ _ _ 0 (delivery_dates_sorted t w)
    · rw [hboxes, sum_range_ite _ _ hrem0]
      rw [min_eq_left (le_of_lt (Int.emod_lt_of_pos b hn0))]
      exact Int.ediv_add_emod b _
    · intro e he
      rw [hsched] at he
      exact (distribute_mem _ _ _ _ _ _ he).1

/-- Witness for C6: ten boxes on Mondays from a Monday reference day give
five Monday dates with two boxes each; an unknown weekday name and a zero box
count give empty schedules. -/
theorem C6_schedule_spec_witness :
    (calculate_delivery_schedule "2024-01-01" (some "Monday") 10 0).map
      (fun e => e.boxes) = [2, 2, 2, 2, 2] ∧
    ((calculate_delivery_schedule "2024-01-01" (some "Monday") 10 0).map
      (fun e => e.boxes)).sum = 10 ∧
    (calculate_delivery_schedule "2024-01-01" (some "Monday") 10 0).map
      (fun e => e.date) = [0, 7, 14, 21, 28] ∧
    calculate_delivery_schedule "2024-01-01" (some "Someday") 10 0 = [] ∧
    calculate_delivery_schedule "2024-01-01" (some "Monday") 0 3 = [] := by
  refine ⟨?_, ?_, ?_, ?_, ?_⟩
  · have h := (C6_schedule_spec.2.2.2.2.2 "2024-01-01" "Monday" 0 10 0
      (by decide) (by decide)).2.2.2.2.2.1
    rw [h]
    decide
  · exact (C6_schedule_spec.2.2.2.2.2 "2024-01-01" "Monday" 0 10 0
      (by decide) (by decide)).2.2.2.2.2.2.1
  · have h := (C6_schedule_spec.2.2.2.2.2 "2024-01-01" "Monday" 0 10 0
      (by decide) (by decide)).1
    rw [h]
    decide
  · exact C6_schedule_spec.2.2.2.1 "2024-01-01" "Someday" 10 0 (by decide)
  · exact C6_schedule_spec.2.2.2.2.1 "2024-01-01" "Monday" 0 3 (by decide)

/-- Structure of a successful sale update: the sale looked up by id exists,
the returned sale is the merged record, and the stored sale row is the first
id-match replaced by it. -/
theorem update_sale_ok_core {db : DB} {sid : String} {u : SaleUpdate}
    {db' : DB} {sale' : Sale}
    (h : update_sale_endpoint db sid u = (db', Except.ok sale')) :
    ∃ sale0, findSaleById db.sales sid = some sale0 ∧
      sale' = applyUpd sale0 u ∧
      db'.sales = updateFirstP (fun s => s.id == sid)
        (fun _ => applyUpd sale0 u) db.sales := by
  cases hf : findSaleById db.sales sid with
  | none => simp [update_sale_endpoint, hf] at h
  | some sale0 =>
    refine ⟨sale0, rfl, ?_, ?_⟩
    · have h2 := congrArg Prod.snd h
      simp only [update_sale_endpoint, hf] at h2
      injection h2 with h3
      exact h3.symm
    · have h1 := congrArg (fun x : DB × Except String Sale => x.1.sales) h
      simp only [update_sale_endpoint, hf] at h1
      exact h1.symm

/-- After a successful sale update, looking the sale up again returns the
updated record. -/
theorem update_sale_find_next {db : DB} {sid : String} {u : SaleUpdate}
    {db' : DB} {sale' : Sale}
    (h : update_sale_endpoint db sid u = (db', Except.ok sale')) :
    findSaleById db'.sales sid = some sale' := by
  obtain ⟨sale0, hf, hs, hsales⟩ := update_sale_ok_core h
  have hf2 : db.sales.find? (fun s => s.id == sid) = some sale0 := hf
  have hp0 := List.find?_some hf2
  have hupd := @find?_updateFirstP _ (fun s : Sale => s.id == sid)
    (fun _ => applyUpd sale0 u) db.sales (fun y hy => hp0)
  rw [findSaleById, hsales, hupd]
  rw [show db.sales.find? (fun s => s.id == sid) = some sale0 from hf]
  simp [hs]

/-- Expense synchronization of one successful sale update, under the
at-most-one-linked-expense invariant: a Free result leaves exactly one linked
FREE_SAMPLES expense carrying the sale's current absolute amount, date and
warehouse; a non-Free result leaves none. -/
theorem update_sale_free_count {db : DB} {sid : String} {u : SaleUpdate}
    {db' : DB} {sale' : Sale}
    (h : update_sale_endpoint db sid u = (db', Except.ok sale'))
    (hcount : countFree db.expenses sale'.invoiceNumber ≤ 1) :
    (sale'.status = "Free" →
      ∃ e : Expense,
        db'.expenses.filter (isFreeExpenseFor sale'.invoiceNumber) = [e] ∧
        e.amount = |sale'.totalAmount| ∧ e.date = sale'.date ∧
        e.warehouse_id = sale'.warehouseId) ∧
    (¬ sale'.status = "Free" →
      countFree db'.expenses sale'.invoiceNumber = 0) := by
  cases hf : findSaleById db.sales sid with
  | none => simp [update_sale_endpoint, hf] at h
  | some sale0 =>
    have hsale : sale' = applyUpd sale0 u := by
      have h2 := congrArg Prod.snd h
      simp only [update_sale_endpoint, hf] at h2
      injection h2 with h3
      exact h3.symm
    subst hsale
    by_cases hst : ((applyUpd sale0 u).status == "Free") = true
    · cases hfind : db.expenses.find?
          (isFreeExpenseFor (applyUpd sale0 u).invoiceNumber) with
      | some e0 =>
        have hexp : db'.expenses = updateFirstP
            (isFreeExpenseFor (applyUpd sale0 u).invoiceNumber)
            (fun e => { e with amount := |(applyUpd sale0 u).totalAmount|,
                               date := (applyUpd sale0 u).date,
                               warehouse_id := (applyUpd sale0 u).warehouseId })
            db.expenses := by
          have h1 := congrArg (fun x : DB × Except String Sale => x.1.expenses) h
          simp only [update_sale_endpoint, hf, hst, hfind] at h1
          exact h1.symm
        constructor
        · intro _
          have hpe0 : isFreeExpenseFor (applyUpd sale0 u).invoiceNumber e0 = true :=
            List.find?_some hfind
          have hsingle : db.expenses.filter
              (isFreeExpenseFor (applyUpd sale0 u).invoiceNumber) = [e0] :=
            filter_single_of_find? hfind hcount
          have hfil := @filter_updateFirstP_single Expense
            (isFreeExpenseFor (applyUpd sale0 u).invoiceNumber)
            (fun e => { e with amount := abs ((applyUpd sale0 u).totalAmount),
                               date := (applyUpd sale0 u).date,
                               warehouse_id := (applyUpd sale0 u).warehouseId })
            db.expenses e0 hfind hsingle hpe0
          rw [← hexp] at hfil
          exact ⟨_, hfil, rfl, rfl, rfl⟩
        · intro hns
          exact absurd (beq_iff_eq.mp hst) hns
      | none =>
        have hexp : db'.expenses = db.expenses ++
            [⟨none, "FREE_SAMPLES", expenseDesc (applyUpd sale0 u).invoiceNumber,
              |(applyUpd sale0 u).totalAmount|, (applyUpd sale0 u).date,
              (applyUpd sale0 u).warehouseId⟩] := by
          have h1 := congrArg (fun x : DB × Except String Sale => x.1.expenses) h
          simp only [update_sale_endpoint, hf, hst, hfind] at h1
          exact h1.symm
        constructor
        · intro _
          have hfil : db'.expenses.filter
              (isFreeExpenseFor (applyUpd sale0 u).invoiceNumber) =
              [⟨none, "FREE_SAMPLES", expenseDesc (applyUpd sale0 u).invoiceNumber,
                abs ((applyUpd sale0 u).totalAmount), (applyUpd sale0 u).date,
                (applyUpd sale0 u).warehouseId⟩] := by
            rw [hexp, List.filter_append, filter_eq_nil_of_find?_none hfind]
            rw [List.nil_append]
            rw [List.filter_cons_of_pos (by simp [isFreeExpenseFor]),
              List.filter_nil]
          exact ⟨_, hfil, rfl, rfl, rfl⟩
        · intro hns
          exact absurd (beq_iff_eq.mp hst) hns
    · have hexp : db'.expenses = eraseFirstP
          (isFreeExpenseFor (applyUpd sale0 u).invoiceNumber) db.expenses := by
        have h1 := congrArg (fun x : DB × Except String Sale => x.1.expenses) h
        simp only [update_sale_endpoint, hf] at h1
        rw [if_neg hst] at h1
        exact h1.symm
      constructor
      · intro hfree
        exact absurd (beq_iff_eq.mpr hfree) hst
      · intro _
        rw [countFree, hexp, filter_eraseFirstP, List.length_tail]
        rw [countFree] at hcount
        omega

/-- Claim C8: after a successful sale update (under the invariant that at
most one linked expense exists beforehand), a resulting status of "Free"
leaves exactly one FREE_SAMPLES expense with the linkage description, whose
amount is abs(totalAmount) and whose date and warehouse match the sale; a
non-Free result leaves zero such expenses.  In particular two Free updates in
a row leave exactly one linked expense with the latest absolute amount, and
Free followed by non-Free leaves zero. -/
theorem C8_free_sample_sync :
    (∀ (db : DB) (sid : String) (u : SaleUpdate) (db' : DB) (sale' : Sale),
      update_sale_endpoint db sid u = (db', Except.ok sale') →
      countFree db.expenses sale'.invoiceNumber ≤ 1 →
      (sale'.status = "Free" →
        ∃ e : Expense,
          db'.expenses.filter (isFreeExpenseFor sale'.invoiceNumber) = [e] ∧
          e.amount = |sale'.totalAmount| ∧ e.date = sale'.date ∧
          e.warehouse_id = sale'.warehouseId) ∧
      (¬ sale'.status = "Free" →
        countFree db'.expenses sale'.invoiceNumber = 0)) ∧
    (∀ (db : DB) (sid : String) (u1 u2 : SaleUpdate) (db1 : DB) (s1 : Sale)
        (db2 : DB) (s2 : Sale),
      update_sale_endpoint db sid u1 = (db1, Except.ok s1) →
      update_sale_endpoint db1 sid u2 = (db2, Except.ok s2) →
      countFree db.expenses s1.invoiceNumber ≤ 1 →
      s1.status = "Free" → s2.status = "Free" →
      ∃ e : Expense,
        db2.expenses.filter (isFreeExpenseFor s2.invoiceNumber) = [e] ∧
        e.amount = |s2.totalAmount| ∧ e.date = s2.date ∧
        e.warehouse_id = s2.warehouseId) ∧
    (∀ (db : DB) (sid : String) (u1 u2 : SaleUpdate) (db1 : DB) (s1 : Sale)
        (db2 : DB) (s2 : Sale),
      update_sale_endpoint db sid u1 = (db1, Except.ok s1) →
      update_sale_endpoint db1 sid u2 = (db2, Except.ok s2) →
      countFree db.expenses s1.invoiceNumber ≤ 1 →
      ¬ s2.status = "Free" →
      countFree db2.expenses s2.invoiceNumber = 0) := by
  have hinvnum : ∀ (db1 : DB) (sid : String) (u2 : SaleUpdate) (db2 : DB)
      (s1 s2 : Sale), findSaleById db1.sales sid = some s1 →
      update_sale_endpoint db1 sid u2 = (db2, Except.ok s2) →
      s2.invoiceNumber = s1.invoiceNumber := by
    intro db1 sid u2 db2 s1 s2 hfind h2
    obtain ⟨t0, hft, hs2, _⟩ := update_sale_ok_core h2
    rw [hft] at hfind
    injection hfind with ht
    rw [hs2, ht]
    rfl
  have hcount1 : ∀ (db : DB) (sid : String) (u1 : SaleUpdate) (db1 : DB)
      (s1 : Sale), update_sale_endpoint db sid u1 = (db1, Except.ok s1) →
      countFree db.expenses s1.invoiceNumber ≤ 1 →
      countFree db1.expenses s1.invoiceNumber ≤ 1 := by
    intro db sid u1 db1 s1 h1 hc
    have c1 := update_sale_free_count h1 hc
    rcases em (s1.status = "Free") with hh | hh
    · obtain ⟨e, he, _⟩ := c1.1 hh
      rw [countFree, he]
      simp
    · rw [c1.2 hh]
      omega
  refine ⟨?_, ?_, ?_⟩
  · intro db sid u db' sale' h hcount
    exact update_sale_free_count h hcount
  · intro db sid u1 u2 db1 s1 db2 s2 h1 h2 hcount hf1 hf2
    have hfind1 : findSaleById db1.sales sid = some s1 := update_sale_find_next h1
    have hinv : s2.invoiceNumber = s1.invoiceNumber :=
      hinvnum db1 sid u2 db2 s1 s2 hfind1 h2
    have hc1 : countFree db1.expenses s2.invoiceNumber ≤ 1 := by
      rw [hinv]
      exact hcount1 db sid u1 db1 s1 h1 hcount
    exact (update_sale_free_count h2 hc1).1 hf2
  · intro db sid u1 u2 db1 s1 db2 s2 h1 h2 hcount hf2
    have hfind1 : findSaleById db1.sales sid = some s1 := update_sale_find_next h1
    have hinv : s2.invoiceNumber = s1.invoiceNumber :=
      hinvnum db1 sid u2 db2 s1 s2 hfind1 h2
    have hc1 : countFree db1.expenses s2.invoiceNumber ≤ 1 := by
      rw [hinv]
      exact hcount1 db sid u1 db1 s1 h1 hcount
    exact (update_sale_free_count h2 hc1).2 hf2

/-- Witness for C8: updating a Paid sale to Free with totalAmount -7 creates
exactly one linked FREE_SAMPLES expense of amount 7. -/
theorem C8_free_sample_sync_witness :
    ∃ e : Expense,
      (update_sale_endpoint
        ⟨[], [⟨"s1", "INV-1", "c", [⟨"P", 2⟩], 10, "2024-01-01", "Paid", some "W"⟩],
         [], [], [], [], 0⟩ "s1"
        ⟨none, none, some "Free", none, none, some (-7)⟩).1.expenses.filter
        (isFreeExpenseFor "INV-1") = [e] ∧ e.amount = 7 := by
  have heq : update_sale_endpoint
      ⟨[], [⟨"s1", "INV-1", "c", [⟨"P", 2⟩], 10, "2024-01-01", "Paid", some "W"⟩],
       [], [], [], [], 0⟩ "s1"
      ⟨none, none, some "Free", none, none, some (-7)⟩ =
      (⟨[], [⟨"s1", "INV-1", "c", [⟨"P", 2⟩], -7, "2024-01-01", "Free", some "W"⟩],
        [], [⟨none, "FREE_SAMPLES", "Free sample - Invoice INV-1", 7,
          "2024-01-01", some "W"⟩], [], [], 0⟩,
       Except.ok ⟨"s1", "INV-1", "c", [⟨"P", 2⟩], -7, "2024-01-01", "Free",
         some "W"⟩) := by
    rfl
  have h := C8_free_sample_sync.1
    ⟨[], [⟨"s1", "INV-1", "c", [⟨"P", 2⟩], 10, "2024-01-01", "Paid", some "W"⟩],
     [], [], [], [], 0⟩ "s1"
    ⟨none, none, some "Free", none, none, some (-7)⟩
    ⟨[], [⟨"s1", "INV-1", "c", [⟨"P", 2⟩], -7, "2024-01-01", "Free", some "W"⟩],
     [], [⟨none, "FREE_SAMPLES", "Free sample - Invoice INV-1", 7,
       "2024-01-01", some "W"⟩], [], [], 0⟩
    ⟨"s1", "INV-1", "c", [⟨"P", 2⟩], -7, "2024-01-01", "Free", some "W"⟩
    heq (by decide)
  obtain ⟨e, he, ha, _, _⟩ := h.1 rfl
  refine ⟨e, ?_, ?_⟩
  · rw [show (update_sale_endpoint
      ⟨[], [⟨"s1", "INV-1", "c", [⟨"P", 2⟩], 10, "2024-01-01", "Paid", some "W"⟩],
       [], [], [], [], 0⟩ "s1"
      ⟨none, none, some "Free", none, none, some (-7)⟩).1 =
      ⟨[], [⟨"s1", "INV-1", "c", [⟨"P", 2⟩], -7, "2024-01-01", "Free", some "W"⟩],
       [], [⟨none, "FREE_SAMPLES", "Free sample - Invoice INV-1", 7,
         "2024-01-01", some "W"⟩], [], [], 0⟩ from congrArg Prod.fst heq]
    exact he
  · rw [ha]
    decide

/-- Structure of a successful `add_sale`: a validated warehouse id, a fully
successful deduction loop, the sale appended to the sales table with the
request's line items and warehouse. -/
theorem add_sale_ok_elim {db : DB} {req : SaleRequest} {db' : DB} {sale : Sale}
    (h : add_sale db req = (db', Except.ok sale)) :
    ∃ (w : String) (s1 : InvState),
      req.warehouseId = some w ∧ (w == "") = false ∧
      adjust_loop ⟨db.inventory, db.nextId⟩ w (fun it => -it.quantity)
        req.products = (s1, none) ∧
      db'.inventory = s1.records ∧
      db'.sales = db.sales ++ [sale] ∧
      sale.products = req.products ∧
      sale.warehouseId = some w := by
  by_cases h1 : strFalsy req.warehouseId
  · simp [add_sale, h1] at h
  · by_cases h2 : req.products.isEmpty
    · simp [add_sale, h1, h2] at h
    · by_cases h3 : (check_stock_availability req.products
          (req.warehouseId.getD "") db.inventory).1
      · rcases hl : adjust_loop ⟨db.inventory, db.nextId⟩
            (req.warehouseId.getD "") (fun it => -it.quantity) req.products
          with ⟨s1, err⟩
        cases err with
        | some e =>
          have heq : add_sale db req =
              ({ db with inventory := s1.records, nextId := s1.nextId },
               Except.error e) := by
            simp [add_sale, h1, h2, h3, hl]
          rw [heq] at h
          simp at h
        | none =>
          obtain ⟨w, hw⟩ : ∃ w, req.warehouseId = some w := by
            cases hrw : req.warehouseId with
            | none => exact absurd (by rw [hrw]; rfl) h1
            | some w => exact ⟨w, rfl⟩
          have hwne : (w == "") = false := by
            cases hc : (w == "") with
            | true => exact absurd (by rw [hw]; exact hc) h1
            | false => rfl
          have hwid : req.warehouseId.getD "" = w := by rw [hw]; rfl
          rw [hwid] at hl
          rw [hwid] at h3
          have heq : add_sale db req = finishAddSale db s1 req := by
            simp [add_sale, h1, h2, h3, hwid, hl]
          rw [heq] at h
          simp only [finishAddSale] at h
          split at h <;>
          · rw [Prod.mk.injEq] at h
            obtain ⟨hdb, hsale⟩ := h
            injection hsale with hs
            refine ⟨w, s1, hw, hwne, hl, ?_, ?_, ?_, ?_⟩
            · rw [← hdb]
            · rw [← hdb, ← hs]
            · rw [← hs]
            · rw [← hs]
              exact hw
      · simp [add_sale, h1, h2, h3] at h

/-- Claim C7, counterexample: a stored sale with a non-null warehouseId whose
only line item has quantity zero and no inventory record cannot be deleted:
the restore step raises the insufficient-stock error and neither the sale row
nor anything else changes, where the claim requires the delete to restore
inventory and remove the sale. -/
theorem C7_counterexample :
    ((⟨"s1", "INV-1", "c", [⟨"P", 0⟩], 10, "2024-01-01", "Paid", some "W"⟩ :
      Sale).warehouseId).isSome = true ∧
    delete_sale
      ⟨[], [⟨"s1", "INV-1", "c", [⟨"P", 0⟩], 10, "2024-01-01", "Paid", some "W"⟩],
       [], [], [], [], 0⟩ "s1" =
      (⟨[], [⟨"s1", "INV-1", "c", [⟨"P", 0⟩], 10, "2024-01-01", "Paid", some "W"⟩],
        [], [], [], [], 0⟩,
       Except.error "Not enough stock for product P") := by
  constructor
  · rfl
  · rfl

/-- Claim C7 as amended: when a stored sale's warehouseId is present and
every restore adjustment succeeds, `delete_sale` adds each line item's
quantity back to the product's stored quantity at that warehouse (cumulated
per product), deletes the first linked FREE_SAMPLES expense and the sale
row; if a restore adjustment fails the delete aborts, keeping the sale and
expense rows but also keeping the restores committed before the failure; if
the warehouseId is absent the delete fails with no change at all; and a sale
created by `add_sale` from a non-negative inventory with non-negative line
quantities and a fresh sale id can be deleted immediately afterwards,
restoring every stored quantity to its pre-sale value. -/
theorem C7_delete_sale_spec :
    (∀ (db : DB) (sid : String) (sale : Sale) (wid : String) (s1 : InvState),
      findSaleById db.sales sid = some sale →
      sale.warehouseId = some wid → (wid == "") = false →
      adjust_loop ⟨db.inventory, db.nextId⟩ wid (fun it => it.quantity)
        sale.products = (s1, none) →
      delete_sale db sid =
        ({ db with inventory := s1.records, nextId := s1.nextId,
                   expenses := eraseFirstP (isFreeExpenseFor sale.invoiceNumber)
                     db.expenses,
                   sales := eraseFirstP (fun s => s.id == sid) db.sales },
         Except.ok ()) ∧
      (∀ p w, quantityOf s1.records p w = quantityOf db.inventory p w +
        (if w = wid then demandOf sale.products p else 0))) ∧
    (∀ (db : DB) (sid : String) (sale : Sale) (wid : String) (s1 : InvState)
        (e : String),
      findSaleById db.sales sid = some sale →
      sale.warehouseId = some wid → (wid == "") = false →
      adjust_loop ⟨db.inventory, db.nextId⟩ wid (fun it => it.quantity)
        sale.products = (s1, some e) →
      delete_sale db sid =
        ({ db with inventory := s1.records, nextId := s1.nextId },
         Except.error e)) ∧
    (∀ (db : DB) (sid : String) (sale : Sale),
      findSaleById db.sales sid = some sale →
      strFalsy sale.warehouseId = true →
      delete_sale db sid = (db, Except.error "Sale has no warehouseId set")) ∧
    (∀ (db : DB) (req : SaleRequest) (db' : DB) (sale : Sale),
      invNonneg db.inventory →
      (∀ it ∈ req.products, 0 ≤ it.quantity) →
      add_sale db req = (db', Except.ok sale) →
      (∀ s ∈ db.sales, s.id ≠ sale.id) →
      ∃ db'' : DB, delete_sale db' sale.id = (db'', Except.ok ()) ∧
        ∀ p w, quantityOf db''.inventory p w = quantityOf db.inventory p w) := by
  refine ⟨?_, ?_, ?_, ?_⟩
  · intro db sid sale wid s1 hf hww hwne hl
    have hstr : strFalsy sale.warehouseId = false := by rw [hww]; exact hwne
    have hwid : sale.warehouseId.getD "" = wid := by rw [hww]; rfl
    constructor
    · simp [delete_sale, hf, hstr, hwid, hl]
    · intro p w
      have hq := adjust_loop_ok_quantityOf wid (fun it => it.quantity)
        sale.products ⟨db.inventory, db.nextId⟩ s1 hl p w
      simpa [demandOf] using hq
  · intro db sid sale wid s1 e hf hww hwne hl
    have hstr : strFalsy sale.warehouseId = false := by rw [hww]; exact hwne
    have hwid : sale.warehouseId.getD "" = wid := by rw [hww]; rfl
    simp [delete_sale, hf, hstr, hwid, hl]
  · intro db sid sale hf hstr
    simp [delete_sale, hf, hstr]
  · intro db req db' sale hnn hq hadd hfresh
    obtain ⟨w, s1, hw, hwne, hl, hinv, hsales, hprod, hsw⟩ := add_sale_ok_elim hadd
    have hfind : findSaleById db'.sales sale.id = some sale := by
      rw [findSaleById, hsales, find?_append_of_none]
      · simp [List.find?_cons]
      · rw [List.find?_eq_none]
        intro x hx
        simp [hfresh x hx]
    have hstr : strFalsy sale.warehouseId = false := by rw [hsw]; exact hwne
    have hwid : sale.warehouseId.getD "" = w := by rw [hsw]; rfl
    have hnn1 : invNonneg s1.records := by
      have hh := adjust_loop_nonneg w (fun it => -it.quantity) req.products
        ⟨db.inventory, db.nextId⟩ hnn
      rwa [hl] at hh
    have hpres := adjust_loop_ok_hasRec_items w (fun it => -it.quantity)
      req.products _ _ hl
    have hok : (adjust_loop ⟨db'.inventory, db'.nextId⟩ w
        (fun it => it.quantity) sale.products).2 = none := by
      rw [hprod]
      have hrec : (⟨db'.inventory, db'.nextId⟩ : InvState).records = s1.records := hinv
      apply restore_loop_ok
      · rw [hrec]
        exact hnn1
      · exact hq
      · intro it hit
        rw [hrec]
        exact Or.inl (hpres it hit)
    rcases hl2 : adjust_loop ⟨db'.inventory, db'.nextId⟩ w
        (fun it => it.quantity) sale.products with ⟨s2, err2⟩
    cases err2 with
    | some e2 =>
      rw [hl2] at hok
      simp at hok
    | none =>
      have hdel : delete_sale db' sale.id =
          ({ db' with inventory := s2.records, nextId := s2.nextId,
                      expenses := eraseFirstP
                        (isFreeExpenseFor sale.invoiceNumber) db'.expenses,
                      sales := eraseFirstP (fun s => s.id == sale.id)
                        db'.sales },
           Except.ok ()) := by
        simp [delete_sale, hfind, hstr, hwid, hl2]
      refine ⟨_, hdel, ?_⟩
      intro p w2
      show quantityOf s2.records p w2 = quantityOf db.inventory p w2
      have hd := adjust_loop_ok_quantityOf w (fun it => -it.quantity)
        req.products ⟨db.inventory, db.nextId⟩ s1 hl p w2
      have hr := adjust_loop_ok_quantityOf w (fun it => it.quantity)
        sale.products ⟨db'.inventory, db'.nextId⟩ s2 hl2 p w2
      rw [hprod] at hr
      have hrec : (⟨db'.inventory, db'.nextId⟩ : InvState).records = s1.records := hinv
      rw [hrec] at hr
      have hneg := list_sum_map_neg
        (req.products.filter (fun it => it.productId == p))
        (fun it => it.quantity)
      rw [hneg] at hd
      have hdrec : (⟨db.inventory, db.nextId⟩ : InvState).records = db.inventory := rfl
      rw [hdrec] at hd
      rw [hr, hd]
      split_ifs <;> omega

/-- Witness for C7 (amended): deleting a stored one-item sale restores the
stock; deleting a sale with a bad stored item fails keeping prior restores;
deleting a warehouse-less sale fails; and an add-then-delete round trip
returns the stock to 5. -/
theorem C7_delete_sale_spec_witness :
    delete_sale
      ⟨[⟨"i0", "P", "W", 2⟩],
       [⟨"s1", "INV-1", "c", [⟨"P", 3⟩], 10, "2024-01-01", "Paid", some "W"⟩],
       [], [], [], [], 0⟩ "s1" =
      (⟨[⟨"i0", "P", "W", 5⟩], [], [], [], [], [], 0⟩, Except.ok ()) ∧
    delete_sale
      ⟨[⟨"i0", "P", "W", 2⟩],
       [⟨"s1", "INV-1", "c", [⟨"P", 3⟩, ⟨"Q", -9⟩], 10, "2024-01-01", "Paid",
         some "W"⟩],
       [], [], [], [], 0⟩ "s1" =
      (⟨[⟨"i0", "P", "W", 5⟩],
        [⟨"s1", "INV-1", "c", [⟨"P", 3⟩, ⟨"Q", -9⟩], 10, "2024-01-01", "Paid",
          some "W"⟩],
        [], [], [], [], 0⟩, Except.error "Not enough stock for product Q") ∧
    delete_sale
      ⟨[], [⟨"s1", "INV-1", "c", [⟨"P", 3⟩], 10, "2024-01-01", "Paid", none⟩],
       [], [], [], [], 0⟩ "s1" =
      (⟨[], [⟨"s1", "INV-1", "c", [⟨"P", 3⟩], 10, "2024-01-01", "Paid", none⟩],
        [], [], [], [], 0⟩, Except.error "Sale has no warehouseId set") ∧
    (∃ db'' : DB,
      delete_sale (add_sale ⟨[⟨"i0", "P", "W", 5⟩], [], [], [], [], [], 0⟩
        ⟨some "W", [⟨"P", 3⟩], "c", 6, "2024-01-01", "Paid"⟩).1 "sale_0" =
        (db'', Except.ok ()) ∧
      quantityOf db''.inventory "P" "W" = 5) := by
  refine ⟨?_, ?_, ?_, ?_⟩
  · have h := (C7_delete_sale_spec.1
      ⟨[⟨"i0", "P", "W", 2⟩],
       [⟨"s1", "INV-1", "c", [⟨"P", 3⟩], 10, "2024-01-01", "Paid", some "W"⟩],
       [], [], [], [], 0⟩ "s1"
      ⟨"s1", "INV-1", "c", [⟨"P", 3⟩], 10, "2024-01-01", "Paid", some "W"⟩
      "W" ⟨[⟨"i0", "P", "W", 5⟩], 0⟩
      (by decide) (by decide) (by decide) (by decide)).1
    rw [h]
    rfl
  · exact C7_delete_sale_spec.2.1
      ⟨[⟨"i0", "P", "W", 2⟩],
       [⟨"s1", "INV-1", "c", [⟨"P", 3⟩, ⟨"Q", -9⟩], 10, "2024-01-01", "Paid",
         some "W"⟩],
       [], [], [], [], 0⟩ "s1"
      ⟨"s1", "INV-1", "c", [⟨"P", 3⟩, ⟨"Q", -9⟩], 10, "2024-01-01", "Paid",
        some "W"⟩
      "W" ⟨[⟨"i0", "P", "W", 5⟩], 0⟩ "Not enough stock for product Q"
      (by decide) (by decide) (by decide) (by decide)
  · exact C7_delete_sale_spec.2.2.1
      ⟨[], [⟨"s1", "INV-1", "c", [⟨"P", 3⟩], 10, "2024-01-01", "Paid", none⟩],
       [], [], [], [], 0⟩ "s1"
      ⟨"s1", "INV-1", "c", [⟨"P", 3⟩], 10, "2024-01-01", "Paid", none⟩
      (by decide) (by decide)
  · have h := C7_delete_sale_spec.2.2.2
      ⟨[⟨"i0", "P", "W", 5⟩], [], [], [], [], [], 0⟩
      ⟨some "W", [⟨"P", 3⟩], "c", 6, "2024-01-01", "Paid"⟩
      (add_sale ⟨[⟨"i0", "P", "W", 5⟩], [], [], [], [], [], 0⟩
        ⟨some "W", [⟨"P", 3⟩], "c", 6, "2024-01-01", "Paid"⟩).1
      ⟨"sale_0", "INV-1", "c", [⟨"P", 3⟩], 6, "2024-01-01", "Paid", some "W"⟩
      (by decide) (by decide) (by rfl) (by decide)
    obtain ⟨db'', hdel, hquant⟩ := h
    refine ⟨db'', hdel, ?_⟩
    rw [hquant]
    decide

end Shroom
